import Mathlib

/-!
Verification development for the Bluebeam BPX import service (`src/main.py`).

The Python source is shallowly embedded below:
* pure helpers (`decode_hex_zlib`, `extract_pdf_dict_fields`, `map_tool_kind`)
  become Lean functions over `String` / `List Char` / `Rat`;
* the external collaborators (zlib inflation, the XML parser, the blob
  download, and the Supabase REST inserts) are modelled as oracles carried in
  an `Env` record — each actual behaviour of the real collaborators
  corresponds to one choice of oracle;
* the `/import-bpx` orchestrator becomes explicit state passing over a
  record-creation trace, with uncaught Python exceptions modelled as a fatal
  outcome that carries the partial state reached at the point of the raise.
-/

namespace BPX

/-- The whitespace characters recognised by Python's `str.strip()` / `str.split()`
and by the regex class matched in the source patterns, restricted to the ASCII
range (the payloads handled by the service are ASCII-hex and PDF-dictionary
text; no theorem below depends on non-ASCII whitespace). -/
def isSpaceChar (c : Char) : Bool :=
  c = ' ' || c = '\t' || c = '\n' || c = '\r' || c = '\x0b' || c = '\x0c'

/-- Python `str.strip()`: drop leading and trailing whitespace. -/
def pyStrip (s : String) : String :=
  ⟨((s.data.dropWhile isSpaceChar).reverse.dropWhile isSpaceChar).reverse⟩

/-- Hex-digit test, as accepted by `binascii.unhexlify` (both cases). -/
def isHexDig (c : Char) : Bool :=
  ('0' ≤ c && c ≤ '9') || ('a' ≤ c && c ≤ 'f') || ('A' ≤ c && c ≤ 'F')

/-- Numeric value of a hex digit (unspecified 0 on non-digits). -/
def hexVal (c : Char) : Nat :=
  if '0' ≤ c && c ≤ '9' then c.toNat - 48
  else if 'a' ≤ c && c ≤ 'f' then c.toNat - 87
  else if 'A' ≤ c && c ≤ 'F' then c.toNat - 55
  else 0

/-- `binascii.unhexlify`: pairs of hex digits to bytes; `none` models the
`binascii.Error` raised on odd length or on a non-hex character. -/
def hexPairs : List Char → Option (List Nat)
  | [] => some []
  | [_] => none
  | a :: b :: rest =>
    if isHexDig a && isHexDig b then
      (hexPairs rest).map (fun t => (hexVal a * 16 + hexVal b) :: t)
    else none

/-- U+FFFD, the replacement character used by `errors="replace"`. -/
def replChar : Char := Char.ofNat 0xFFFD

/-- UTF-8 continuation byte test. -/
def isCont (b : Nat) : Bool := 128 ≤ b && b ≤ 191

/-- Constraint on the second byte of a 3-byte UTF-8 sequence (excludes
overlong encodings for E0 and surrogates for ED). -/
def utf8Second3Ok (b b2 : Nat) : Bool :=
  if b = 224 then 160 ≤ b2 && b2 ≤ 191
  else if b = 237 then 128 ≤ b2 && b2 ≤ 159
  else isCont b2

/-- Constraint on the second byte of a 4-byte UTF-8 sequence (excludes
overlong encodings for F0 and out-of-range code points for F4). -/
def utf8Second4Ok (b b2 : Nat) : Bool :=
  if b = 240 then 144 ≤ b2 && b2 ≤ 191
  else if b = 244 then 128 ≤ b2 && b2 ≤ 143
  else isCont b2

/-- One UTF-8 decoding step on lead byte `b` with following bytes `rest`:
the decoded character (U+FFFD on an invalid or truncated sequence) and how
many bytes of `rest` the sequence consumed beyond the lead byte. -/
def utf8Step (b : Nat) (rest : List Nat) : Char × Nat :=
  if b ≤ 127 then (Char.ofNat b, 0)
  else if 194 ≤ b && b ≤ 223 then
    match rest with
    | b2 :: _ =>
      if isCont b2 then (Char.ofNat ((b - 192) * 64 + (b2 - 128)), 1)
      else (replChar, 0)
    | [] => (replChar, 0)
  else if 224 ≤ b && b ≤ 239 then
    match rest with
    | b2 :: b3 :: _ =>
      if utf8Second3Ok b b2 && isCont b3 then
        (Char.ofNat ((b - 224) * 4096 + (b2 - 128) * 64 + (b3 - 128)), 2)
      else (replChar, 0)
    | _ => (replChar, 0)
  else if 240 ≤ b && b ≤ 244 then
    match rest with
    | b2 :: b3 :: b4 :: _ =>
      if utf8Second4Ok b b2 && isCont b3 && isCont b4 then
        (Char.ofNat ((b - 240) * 262144 + (b2 - 128) * 4096 + (b3 - 128) * 64 + (b4 - 128)), 3)
      else (replChar, 0)
    | _ => (replChar, 0)
  else (replChar, 0)

/-- `bytes.decode("utf-8", errors="replace")`: total UTF-8 decoding that
substitutes U+FFFD for invalid sequences. The number of replacement
characters emitted for a truncated multi-byte sequence approximates
CPython's (which may consume several bytes per replacement); no theorem
in this development depends on that granularity. -/
def utf8ReplaceAux : Nat → List Nat → List Char
  | 0, _ => []
  | _ + 1, [] => []
  | fuel + 1, b :: rest =>
    match utf8Step b rest with
    | (c, k) => c :: utf8ReplaceAux fuel (rest.drop k)

/-- `bytes.decode("utf-8", errors="replace")` driver. Each step consumes at
least one byte, so fuel equal to the byte count is never exhausted; the fuel
keeps the recursion structural. -/
def utf8Replace (l : List Nat) : List Char := utf8ReplaceAux l.length l

/-- The two failure modes of `decode_hex_zlib`: `binascii.Error` from
`unhexlify` and `zlib.error` from `decompress`. -/
inductive DecErr where
  | decodeError
  | inflateError
deriving DecidableEq, Repr

/-- `decode_hex_zlib` from `src/main.py`. zlib-stream decompression is an
external library call, modelled by the `inflate` oracle: `none` models a
`zlib.error` raise, `some out` a successful decompression to bytes `out`. -/
def decode_hex_zlib (inflate : List Nat → Option (List Nat)) (hexStr : String) :
    Except DecErr String :=
  let s := pyStrip hexStr
  if s = "" then .ok ""
  else
    match hexPairs s.data with
    | none => .error .decodeError
    | some raw =>
      match inflate raw with
      | none => .error .inflateError
      | some out => .ok ⟨utf8Replace out⟩

/-- Match a literal prefix of a character list, returning the remainder. -/
def dropLit : List Char → List Char → Option (List Char)
  | cs, [] => some cs
  | [], _ :: _ => none
  | c :: cs, p :: ps => if c = p then dropLit cs ps else none

/-- `re.search` over a fixed matcher `f`: try the matcher at every start
position from left to right (exactly the backtracking search the `re`
module performs for the patterns in the source, none of which can match
the empty string). -/
def scan (f : List Char → Option (List Char)) : List Char → Option (List Char)
  | [] => f []
  | c :: rest =>
    match f (c :: rest) with
    | some g => some g
    | none => scan f rest

/-- Body of `/Subj\((.*?)\)` at one position: the literal `/Subj(`, then the
lazy group — everything up to the first `)`, failing if a newline (which `.`
does not match) intervenes. -/
def takeToParen : List Char → Option (List Char)
  | [] => none
  | c :: rest =>
    if c = ')' then some []
    else if c = '\n' then none
    else (takeToParen rest).map (fun g => c :: g)

/-- Matcher for `/Subj\((.*?)\)` at one start position. -/
def subjAt (cs : List Char) : Option (List Char) :=
  match dropLit cs ('/' :: 'S' :: 'u' :: 'b' :: 'j' :: '(' :: []) with
  | none => none
  | some rest => takeToParen rest

/-- ASCII alphanumeric, the class `[A-Za-z0-9]`. -/
def isAlnumChar (c : Char) : Bool :=
  ('A' ≤ c && c ≤ 'Z') || ('a' ≤ c && c ≤ 'z') || ('0' ≤ c && c ≤ '9')

/-- Matcher for `/IT/([A-Za-z0-9]+)` at one start position: the literal
`/IT/` followed by a maximal nonempty alphanumeric run. -/
def itAt (cs : List Char) : Option (List Char) :=
  match dropLit cs ('/' :: 'I' :: 'T' :: '/' :: []) with
  | none => none
  | some rest =>
    let run := rest.takeWhile isAlnumChar
    if run = [] then none else some run

/-- The class `[0-9.\s]` inside the bracketed-array patterns. -/
def isArrChar (c : Char) : Bool := c.isDigit || c = '.' || isSpaceChar c

/-- Matcher for `/KEY\s*\[\s*([0-9.\s]+)\]` at one start position. After the
bracket, the greedy `\s*` and the greedy group together consume exactly the
maximal run of `[0-9.\s]` characters, which must be nonempty and followed by
`]`. The group is taken to be that whole run: the `re` group excludes
whatever leading whitespace `\s*` keeps after backtracking, but the group is
only ever consumed by `str.split()`, for which leading whitespace is
irrelevant, so the two readings give identical results everywhere. -/
def arrAt (key : List Char) (cs : List Char) : Option (List Char) :=
  match dropLit cs ('/' :: key) with
  | none => none
  | some rest =>
    match rest.dropWhile isSpaceChar with
    | '[' :: rest2 =>
      match rest2.span isArrChar with
      | (run, after) =>
        if run = [] then none
        else
          match after with
          | ']' :: _ => some run
          | _ => none
    | _ => none

/-- The class `[0-9.]` in the scalar patterns. -/
def isNumChar (c : Char) : Bool := c.isDigit || c = '.'

/-- Matcher for `/KEY\s+([0-9.]+)` at one start position: the key, at least
one whitespace character, then a maximal nonempty run of `[0-9.]`. -/
def numAt (key : List Char) (cs : List Char) : Option (List Char) :=
  match dropLit cs ('/' :: key) with
  | none => none
  | some rest =>
    match rest.span isSpaceChar with
    | (sp, rest2) =>
      if sp = [] then none
      else
        match rest2.span isNumChar with
        | (run, _) => if run = [] then none else some run

/-- Well-formedness of a `[0-9.]` token for Python's `float()`: nonempty,
only digits and dots, at most one dot, and at least one digit.
(`float(".")` and `float("1.2.3")` raise `ValueError`.) -/
def validFloatStr (t : List Char) : Bool :=
  !t.isEmpty && t.all isNumChar && t.count '.' ≤ 1 && t.any Char.isDigit

/-- Decimal value of a digit run. -/
def natOfDigits (ds : List Char) : Nat :=
  ds.foldl (fun a c => 10 * a + (c.toNat - 48)) 0

/-- Python `float()` restricted to the `[0-9.]` tokens the source feeds it:
`none` models the `ValueError` raise on a malformed token. The value is kept
as an exact rational; the source stores an IEEE double, but no claim below
compares numeric magnitudes, only presence and token well-formedness. -/
def pyFloat? (t : List Char) : Option Rat :=
  if validFloatStr t then
    some ((natOfDigits (t.takeWhile (fun c => c != '.')) : Rat) +
      (natOfDigits ((t.dropWhile (fun c => c != '.')).tail) : Rat) /
        (10 : Rat) ^ ((t.dropWhile (fun c => c != '.')).tail.length))
  else none

/-- Python `str.split()` with no argument: split on whitespace runs,
producing no empty tokens. -/
def splitWsAux : List Char → List Char → List (List Char)
  | [], acc => if acc = [] then [] else [acc.reverse]
  | c :: rest, acc =>
    if isSpaceChar c then
      if acc = [] then splitWsAux rest [] else acc.reverse :: splitWsAux rest []
    else splitWsAux rest (c :: acc)

/-- Python `str.split()` with no argument. -/
def splitWs (cs : List Char) : List (List Char) :=
  splitWsAux cs []

/-- Sequential float parsing of a token list; `none` as soon as one token
is malformed (the list comprehension raises at the first bad token). -/
def mapFloats : List (List Char) → Option (List Rat)
  | [] => some []
  | t :: ts =>
    match pyFloat? t with
    | none => none
    | some v => (mapFloats ts).map (fun l => v :: l)

/-- `[float(x) for x in g.split() if x.strip()]`: `split()` never yields
blank tokens, so the filter is vacuous; `none` models a `ValueError` raise
from `float` on any token. -/
def floatList? (g : List Char) : Option (List Rat) :=
  mapFloats (splitWs g)

/-- The style map built by `extract_pdf_dict_fields`; a `none` field models
the key being absent from the Python dict. -/
structure Style where
  stroke_rgb : Option (List Rat) := none
  fill_rgb : Option (List Rat) := none
  opacity : Option Rat := none
  line_width : Option Rat := none
  dash : Option (List Rat) := none
deriving DecidableEq, Repr

/-- `extract_array(key)` from the source: `ok none` when the pattern does not
match anywhere, `error` when a matched group contains a malformed float token
(an uncaught `ValueError`), `ok (some l)` otherwise. -/
def getArr (key : List Char) (cs : List Char) : Except Unit (Option (List Rat)) :=
  match scan (arrAt key) cs with
  | none => .ok none
  | some g =>
    match floatList? g with
    | none => .error ()
    | some l => .ok (some l)

/-- `extract_num(key)` from the source, with the same error convention. -/
def getNum (key : List Char) (cs : List Char) : Except Unit (Option Rat) :=
  match scan (numAt key) cs with
  | none => .ok none
  | some g =>
    match pyFloat? g with
    | none => .error ()
    | some v => .ok (some v)

/-- Python truthiness of an optional list (`if C:`): present and nonempty. -/
def truthyList (o : Option (List Rat)) : Bool :=
  match o with
  | some (_ :: _) => true
  | _ => false

/-- `extract_pdf_dict_fields` from `src/main.py`. The five numeric lookups
run in source order (C, IC, CA, LW, D); a malformed matched number raises
(`.error ()`), which the orchestrator does not catch. -/
def extract_pdf_dict_fields (raw : String) :
    Except Unit (Option String × Option String × Style) := do
  let cs := raw.data
  let subj := (scan subjAt cs).map (fun g => (⟨g⟩ : String))
  let it := (scan itAt cs).map (fun g => (⟨g⟩ : String))
  let C ← getArr ('C' :: []) cs
  let IC ← getArr ('I' :: 'C' :: []) cs
  let CA ← getNum ('C' :: 'A' :: []) cs
  let LW ← getNum ('L' :: 'W' :: []) cs
  let D ← getArr ('D' :: []) cs
  let style : Style :=
    { stroke_rgb := if truthyList C then (C.map (fun l => l.take 3)) else none
      fill_rgb := if truthyList IC then (IC.map (fun l => l.take 3)) else none
      opacity := CA
      line_width := LW
      dash := if truthyList D then D else none }
  return (subj, it, style)

/-- `TYPE_MAP` from `src/main.py`. -/
def TYPE_MAP : List (String × String) :=
  [("annotationpolyline", "length"),
   ("annotationline", "length"),
   ("annotationlength", "length"),
   ("annotationmeasureperimeter", "length"),
   ("annotationpolygon", "area"),
   ("annotationarea", "area"),
   ("annotationrectangle", "area"),
   ("annotationsquare", "area"),
   ("annotationcount", "count"),
   ("annotationcloudplus", "count")]

/-- `SKIP_TYPES` from `src/main.py`. -/
def SKIP_TYPES : List String :=
  ["annotationbrxstamp",
   "annotationcircle",
   "annotationimage",
   "annotationstamp",
   "annotationfreetext",
   "annotationcallout"]

/-- Python `str.lower()` on the ASCII range (the classification keys are all
ASCII; see `map_tool_kind_spec_cases` for why this is extensionally adequate
for classification). -/
def pyLower (s : String) : String := ⟨s.data.map Char.toLower⟩

/-- Python `str.split(".")` on character lists (structural, so that closed
instances reduce in the kernel; same semantics as `String.splitOn "."`). -/
def splitDotAux : List Char → List Char → List (List Char)
  | [], acc => [acc.reverse]
  | c :: rest, acc =>
    if c = '.' then acc.reverse :: splitDotAux rest []
    else splitDotAux rest (c :: acc)

/-- `it.split(".")[-1]`: the last dot-separated segment. -/
def lastDotSeg (s : String) : String := ⟨(splitDotAux s.data []).getLastD []⟩

/-- `map_tool_kind` from `src/main.py`: `if not it` covers both an absent
token and the empty string. -/
def map_tool_kind (it : Option String) : String :=
  match it with
  | none => "count"
  | some s =>
    if s = "" then "count"
    else if SKIP_TYPES.contains (pyLower (lastDotSeg s)) then "skip"
    else (TYPE_MAP.lookup (pyLower (lastDotSeg s))).getD "count"

/-! ## The orchestrator (`import_bpx` in `src/main.py`)

The XML document is modelled post-parse: `Doc` carries, in document order,
the elements that `root.findall(".//BluebeamRevuToolSet")` returns, each with
its `findtext("Title")` result and its `findall(".//ToolChestItem")` items,
each with its `findtext("Raw")` result. The external collaborators are
oracles in `Env`; the per-table insert oracles are indexed by the number of
prior insert calls on that table, so every actual record-store behaviour is
one choice of oracle. -/

/-- One `ToolChestItem` element: `rawHex` is `item.findtext("Raw")`
(`none` when the child is missing). -/
structure Item where
  rawHex : Option String
deriving DecidableEq, Repr

/-- One `BluebeamRevuToolSet` element: `titleHex` is `ts.findtext("Title")`. -/
structure ToolsetEl where
  titleHex : Option String
  items : List Item
deriving DecidableEq, Repr

/-- A parsed BPX document. -/
structure Doc where
  toolsets : List ToolsetEl
deriving DecidableEq, Repr

/-- Oracles for the external collaborators: zlib, the blob download, the XML
parser (`none` models an `ET.ParseError` raise), and the four record-store
tables (`.error e` models the `RuntimeError` that `sb_insert` raises, with
`e` standing for `str(e)`). -/
structure Env where
  inflate : List Nat → Option (List Nat)
  download : Except String String
  parseXml : String → Option Doc
  profileInsert : Except String Nat
  toolsetInsert : Nat → Except String Nat
  toolInsert : Nat → Except String Nat
  presetInsert : Nat → Except String Unit

/-- A created `bluebeam_toolsets` row (the fields the source populates). -/
structure ToolsetRec where
  id : Nat
  profile_id : Nat
  title : String
  sort_index : Nat
deriving DecidableEq, Repr

/-- A created `bluebeam_tools` row. `mapping_it` and `mapping_category` are
the two components of `mapping_json`. -/
structure ToolRec where
  id : Nat
  toolset_id : Nat
  name : String
  tool_kind : String
  sort_index : Nat
  raw_decoded : String
  style_json : Style
  mapping_it : Option String
  mapping_category : String
deriving DecidableEq, Repr

/-- A created `presets` row (`default_tags_json` is the constant empty map
and is omitted). -/
structure PresetRec where
  project_id : Option String
  name : String
  tool_type : String
  category : String
  style_json : Style
  sort_index : Nat
  bluebeam_tool_id : Nat
deriving DecidableEq, Repr

/-- The mutable run state: per-table insert-call counters, the created rows
in creation order, the three counters and the warning list from the source. -/
structure St where
  toolsetCalls : Nat := 0
  toolCalls : Nat := 0
  presetCalls : Nat := 0
  toolsets : List ToolsetRec := []
  tools : List ToolRec := []
  presets : List PresetRec := []
  toolsets_imported : Nat := 0
  tools_imported : Nat := 0
  presets_created : Nat := 0
  warnings : List String := []
deriving DecidableEq, Repr

/-- The uncaught exceptions that abort an import run, by provenance. -/
inductive Fatal where
  | authError
  | downloadError (e : String)
  | profileInsertError (e : String)
  | parseError
  | toolsetInsertError (e : String)
  | toolInsertError (e : String)
  | extractError
deriving DecidableEq, Repr

/-- The success response of `/import-bpx`. -/
structure Summary where
  profileId : Nat
  toolsetCount : Nat
  toolCount : Nat
  presetCount : Nat
  missingReferences : List String
  warnings : List String
deriving DecidableEq, Repr

instance {ε α : Type} [DecidableEq ε] [DecidableEq α] : DecidableEq (Except ε α) :=
  fun x y =>
    match x, y with
    | .error a, .error b =>
      match decEq a b with
      | isTrue h => isTrue (h ▸ rfl)
      | isFalse h => isFalse (fun hc => h (Except.error.inj hc))
    | .ok a, .ok b =>
      match decEq a b with
      | isTrue h => isTrue (h ▸ rfl)
      | isFalse h => isFalse (fun hc => h (Except.ok.inj hc))
    | .error _, .ok _ => isFalse (fun hc => Except.noConfusion hc)
    | .ok _, .error _ => isFalse (fun hc => Except.noConfusion hc)

/-- Result of a run: the Profile row id if one was created, the created-row
trace and counters reached, and either a summary or the fatal error. -/
structure RunOut where
  profile : Option Nat
  st : St
  outcome : Except Fatal Summary
deriving DecidableEq, Repr

/-- Python string slice `s[:n]` (by code point, as Python slices `str`). -/
def pyTake (n : Nat) (s : String) : String := ⟨s.data.take n⟩

/-- The positional fallback tool name `f"Tool {i + 1}"`. -/
def fallbackToolName (i : Nat) : String := "Tool " ++ toString (i + 1)

/-- `subj or f"Tool {i+1}"`: Python `or` falls through on `None` and on the
empty string. -/
def toolName (subj : Option String) (i : Nat) : String :=
  match subj with
  | some s => if s = "" then fallbackToolName i else s
  | none => fallbackToolName i

/-- The loop body of the per-item `for` loop (lines 194-237 of the source):
`.inl st` is a `continue` with updated state, `.inr (st, f)` an uncaught
exception raised with state `st` already committed. -/
def processItem (env : Env) (projId : Option String) (title : String)
    (tsIdx tsId : Nat) (item : Item) (i : Nat) (st : St) : St ⊕ (St × Fatal) :=
  let rawHex := item.rawHex.getD ""
  if rawHex = "" then .inl st
  else
    match decode_hex_zlib env.inflate rawHex with
    | .error _ => .inl { st with
        warnings := st.warnings ++
          ["Failed decoding tool in \x27" ++ title ++ "\x27, item " ++ toString i] }
    | .ok raw =>
      match extract_pdf_dict_fields raw with
      | .error _ => .inr (st, .extractError)
      | .ok (subj, it, style) =>
        let tool_kind := map_tool_kind it
        if tool_kind = "skip" then .inl st
        else
          let name := toolName subj i
          match env.toolInsert st.toolCalls with
          | .error e => .inr ({ st with toolCalls := st.toolCalls + 1 }, .toolInsertError e)
          | .ok toolId =>
            let st1 : St := { st with
              toolCalls := st.toolCalls + 1,
              tools := st.tools ++
                [{ id := toolId, toolset_id := tsId, name := name, tool_kind := tool_kind,
                   sort_index := i, raw_decoded := pyTake 4000 raw, style_json := style,
                   mapping_it := it, mapping_category := title }],
              tools_imported := st.tools_imported + 1 }
            match env.presetInsert st1.presetCalls with
            | .ok _ => .inl { st1 with
                presetCalls := st1.presetCalls + 1,
                presets := st1.presets ++
                  [{ project_id := projId, name := name, tool_type := tool_kind,
                     category := title, style_json := style,
                     sort_index := tsIdx * 1000 + i, bluebeam_tool_id := toolId }],
                presets_created := st1.presets_created + 1 }
            | .error e => .inl { st1 with
                presetCalls := st1.presetCalls + 1,
                warnings := st1.warnings ++
                  ["Failed preset for \x27" ++ name ++ "\x27: " ++ e] }

/-- The per-item `for` loop over `enumerate(items)`, starting at index `i`. -/
def runItems (env : Env) (projId : Option String) (title : String) (tsIdx tsId : Nat) :
    List Item → Nat → St → St × Option Fatal
  | [], _, st => (st, none)
  | item :: rest, i, st =>
    match processItem env projId title tsIdx tsId item i st with
    | .inl st1 => runItems env projId title tsIdx tsId rest (i + 1) st1
    | .inr (st1, f) => (st1, some f)

/-- The built-in toolset titles excluded by the source. -/
def excludedTitle (t : String) : Bool :=
  t = "Recent Tools" || t = "Seneste vaerktoejer"

/-- Lines 174-179 of the source: resolve the toolset title (fallback title
plus a warning on decode failure; no decode attempted on a missing or empty
`Title` child). -/
def titleStep (env : Env) (ts : ToolsetEl) (tsIdx : Nat) (st : St) : String × St :=
  if (ts.titleHex.getD "") = "" then ("Toolset " ++ toString (tsIdx + 1), st)
  else
    match decode_hex_zlib env.inflate (ts.titleHex.getD "") with
    | .ok t => (t, st)
    | .error _ =>
      ("Toolset " ++ toString (tsIdx + 1),
       { st with warnings := st.warnings ++
           ["Failed decoding toolset title at index " ++ toString tsIdx] })

/-- The loop body of the per-toolset `for` loop (lines 174-237). -/
def processToolset (env : Env) (projId : Option String) (profileId : Nat)
    (ts : ToolsetEl) (tsIdx : Nat) (st : St) : St ⊕ (St × Fatal) :=
  match titleStep env ts tsIdx st with
  | (title, st1) =>
    if excludedTitle title then .inl st1
    else
      match env.toolsetInsert st1.toolsetCalls with
      | .error e => .inr ({ st1 with toolsetCalls := st1.toolsetCalls + 1 },
                          .toolsetInsertError e)
      | .ok tsId =>
        let st2 : St := { st1 with
          toolsetCalls := st1.toolsetCalls + 1,
          toolsets := st1.toolsets ++
            [{ id := tsId, profile_id := profileId, title := title, sort_index := tsIdx }],
          toolsets_imported := st1.toolsets_imported + 1 }
        match runItems env projId title tsIdx tsId ts.items 0 st2 with
        | (st3, none) => .inl st3
        | (st3, some f) => .inr (st3, f)

/-- The per-toolset `for` loop over `enumerate(toolset_els)`. -/
def runToolsets (env : Env) (projId : Option String) (profileId : Nat) :
    List ToolsetEl → Nat → St → St × Option Fatal
  | [], _, st => (st, none)
  | ts :: rest, tsIdx, st =>
    match processToolset env projId profileId ts tsIdx st with
    | .inl st1 => runToolsets env projId profileId rest (tsIdx + 1) st1
    | .inr (st1, f) => (st1, some f)

/-- The `/import-bpx` handler, lines 144-246 of the source: auth check, blob
download, Profile insert, XML parse, toolset/tool loops, summary. Only the
generated id of the Profile row is consumed downstream (its other columns
are request fields and constants), so the trace records just the id. -/
def import_bpx (env : Env) (apiKey authHeader : String) (projId : Option String) : RunOut :=
  if apiKey = "" || authHeader != "Bearer " ++ apiKey then
    ⟨none, {}, .error .authError⟩
  else
    match env.download with
    | .error e => ⟨none, {}, .error (.downloadError e)⟩
    | .ok xmlText =>
      match env.profileInsert with
      | .error e => ⟨none, {}, .error (.profileInsertError e)⟩
      | .ok profileId =>
        match env.parseXml xmlText with
        | none => ⟨some profileId, {}, .error .parseError⟩
        | some doc =>
          match runToolsets env projId profileId doc.toolsets 0 {} with
          | (st, some f) => ⟨some profileId, st, .error f⟩
          | (st, none) =>
            ⟨some profileId, st,
             .ok ⟨profileId, st.toolsets_imported, st.tools_imported,
                  st.presets_created, [], st.warnings⟩⟩

/-! ## Supporting lemmas -/

/-- Total hex-pair decoding (meaningful on even-length all-hex input). -/
def hexBytes : List Char → List Nat
  | a :: b :: rest => (hexVal a * 16 + hexVal b) :: hexBytes rest
  | _ => []

theorem hexPairs_eq_none_iff (cs : List Char) :
    hexPairs cs = none ↔ (cs.length % 2 = 1 || cs.any (fun c => !isHexDig c)) = true := by
  induction cs using hexPairs.induct with
  | case1 => simp [hexPairs]
  | case2 c => simp [hexPairs]
  | case3 a b rest hab ih =>
    have ha := ((Bool.and_eq_true _ _).mp hab).1
    have hb := ((Bool.and_eq_true _ _).mp hab).2
    have hmod : ((rest.length + 1 + 1) % 2 = 1) = (rest.length % 2 = 1) := by
      apply propext; omega
    simp [hexPairs, hab, ih, ha, hb, hmod]
  | case4 a b rest hab =>
    have hor : isHexDig a = false ∨ isHexDig b = false := by
      cases h1 : isHexDig a with
      | false => exact Or.inl rfl
      | true =>
        cases h2 : isHexDig b with
        | false => exact Or.inr rfl
        | true => exact absurd (by rw [h1, h2]; rfl) hab
    simp [hexPairs, hab]
    rcases hor with h | h <;> simp [h]

theorem hexPairs_eq_some_hexBytes (cs : List Char) (h : hexPairs cs ≠ none) :
    hexPairs cs = some (hexBytes cs) := by
  induction cs using hexPairs.induct with
  | case1 => simp [hexPairs, hexBytes]
  | case2 c => simp [hexPairs] at h
  | case3 a b rest hab ih =>
    simp only [hexPairs, hab, if_true] at h ⊢
    have hrest : hexPairs rest ≠ none := by
      intro hn
      rw [hn] at h
      simp at h
    rw [ih hrest]
    simp [hexBytes]
  | case4 a b rest hab =>
    simp [hexPairs, hab] at h

theorem pyStrip_eq_empty_iff (s : String) :
    pyStrip s = "" ↔ s.data.all isSpaceChar = true := by
  unfold pyStrip
  constructor
  · intro h
    have hdata : ((s.data.dropWhile isSpaceChar).reverse.dropWhile isSpaceChar).reverse = [] := by
      have := congrArg String.data h
      simpa using this
    rw [List.reverse_eq_nil_iff, List.dropWhile_eq_nil_iff] at hdata
    have hdrop : ∀ x ∈ s.data.dropWhile isSpaceChar, isSpaceChar x := by
      intro x hx
      exact hdata x (List.mem_reverse.mpr hx)
    rw [List.all_eq_true]
    intro x hx
    rcases List.mem_append.mp ((List.takeWhile_append_dropWhile (p := isSpaceChar) (l := s.data)) ▸ hx) with h1 | h2
    · exact List.mem_takeWhile_imp h1
    · exact hdrop x h2
  · intro h
    have h1 : s.data.dropWhile isSpaceChar = [] := by
      rw [List.dropWhile_eq_nil_iff]
      intro x hx
      exact List.all_eq_true.mp h x hx
    show String.mk _ = ""
    rw [h1]
    rfl

/-! ## C5 — decoder contract -/

/-- Modelled from the spec, §4.1, word for word (second definition for the
refinement comparison): empty or whitespace-only input yields empty output
with no error; hex-decode fails with DecodeError iff the trimmed string has
odd length or contains a non-hex character; inflation fails with
InflateError iff the bytes are not a valid zlib stream (`inflate` returns
`none`); the UTF-8 interpretation substitutes replacement characters and
never fails. -/
def decode_spec (inflate : List Nat → Option (List Nat)) (hexStr : String) :
    Except DecErr String :=
  let t := pyStrip hexStr
  if t = "" then .ok ""
  else if t.data.length % 2 = 1 ∨ ∃ c ∈ t.data, isHexDig c = false then .error .decodeError
  else
    match inflate (hexBytes t.data) with
    | none => .error .inflateError
    | some out => .ok ⟨utf8Replace out⟩

/-- C5: `decode` returns empty text with no error on every empty or
whitespace-only input; it fails with `DecodeError` exactly when the trimmed
input has odd length or contains a non-hex character; it fails with
`InflateError` exactly when the hex-decoded bytes are not a valid zlib
stream; and the final UTF-8 interpretation never fails, substituting a
replacement character for invalid sequences. Stated as a refinement:
`decode_hex_zlib` coincides with the clause-by-clause spec-side decoder for
every inflation oracle and every input, and trimming to empty is exactly
being empty or all-whitespace. -/
theorem decode_hex_zlib_meets_spec :
    (∀ (inflate : List Nat → Option (List Nat)) (hexStr : String),
       decode_hex_zlib inflate hexStr = decode_spec inflate hexStr) ∧
    (∀ s : String, pyStrip s = "" ↔ s.data.all isSpaceChar = true) := by
  constructor
  · intro inflate hexStr
    unfold decode_hex_zlib decode_spec
    by_cases h0 : pyStrip hexStr = ""
    · simp [h0]
    · simp only [h0, if_false]
      by_cases hn : hexPairs (pyStrip hexStr).data = none
      · have hc := (hexPairs_eq_none_iff (pyStrip hexStr).data).mp hn
        simp only [Bool.or_eq_true, decide_eq_true_eq, List.any_eq_true,
          Bool.not_eq_true'] at hc
        rw [hn, if_pos hc]
      · have hsome := hexPairs_eq_some_hexBytes (pyStrip hexStr).data hn
        rw [hsome, if_neg]
        intro hcond
        apply hn
        apply (hexPairs_eq_none_iff (pyStrip hexStr).data).mpr
        simp only [Bool.or_eq_true, decide_eq_true_eq, List.any_eq_true,
          Bool.not_eq_true']
        exact hcond
  · exact pyStrip_eq_empty_iff

/-! ## C6 — classifier -/

/-- Modelled from the spec, §4.3, for the refinement comparison: absent
token yields count; otherwise the lowercased last dot-segment is looked up
in the exclusion set, then in the mapping table, defaulting to count. (The
source additionally special-cases the empty token via Python truthiness,
which coincides with the default lookup on the empty segment.) -/
def classify_spec (it : Option String) : String :=
  match it with
  | none => "count"
  | some s =>
    if SKIP_TYPES.contains (pyLower (lastDotSeg s)) then "skip"
    else (TYPE_MAP.lookup (pyLower (lastDotSeg s))).getD "count"

theorem lookup_TYPE_MAP_mem (k v : String) (h : TYPE_MAP.lookup k = some v) :
    v = "length" ∨ v = "area" ∨ v = "count" := by
  simp only [TYPE_MAP, List.lookup] at h
  repeat' split at h
  all_goals simp_all

/-- C6: `classify(typeToken)` always returns a kind in
`{length, area, count, skip}` and is a pure function of the lowercased last
dot-separated segment of the token: an absent token yields `count`; a
segment in the fixed exclusion set yields `skip` regardless of case;
otherwise the fixed mapping table gives the kind, defaulting to `count`.
Stated as: `map_tool_kind` coincides with the segment-wise spec-side
classifier on every input, and its output is always one of the four kinds. -/
theorem map_tool_kind_meets_spec :
    (∀ it : Option String, map_tool_kind it = classify_spec it) ∧
    (∀ it : Option String,
       map_tool_kind it = "length" ∨ map_tool_kind it = "area" ∨
       map_tool_kind it = "count" ∨ map_tool_kind it = "skip") := by
  constructor
  · intro it
    match it with
    | none => rfl
    | some s =>
      by_cases hs : s = ""
      · subst hs; decide
      · simp only [map_tool_kind, classify_spec, hs, if_false]
  · intro it
    match it with
    | none => simp [map_tool_kind]
    | some s =>
      simp only [map_tool_kind]
      split
      · simp
      · split
        · simp
        · cases hl : TYPE_MAP.lookup (pyLower (lastDotSeg s)) with
          | none => simp [hl]
          | some v =>
            rcases lookup_TYPE_MAP_mem _ v hl with h | h | h <;> simp [hl, h]

/-! ## C3 — extractor totality -/

theorem pyFloat?_eq_none_iff (t : List Char) :
    pyFloat? t = none ↔ validFloatStr t = false := by
  unfold pyFloat?
  by_cases h : validFloatStr t = true
  · simp [h]
  · simp only [Bool.not_eq_true] at h
    simp [h]

theorem mapFloats_eq_none_iff (l : List (List Char)) :
    mapFloats l = none ↔ l.any (fun t => !validFloatStr t) = true := by
  induction l with
  | nil => simp [mapFloats]
  | cons t ts ih =>
    cases hf : pyFloat? t with
    | none =>
      have hv := (pyFloat?_eq_none_iff t).mp hf
      simp [mapFloats, hf, hv]
    | some v =>
      have hv : validFloatStr t = true := by
        cases hvv : validFloatStr t with
        | true => rfl
        | false =>
          rw [(pyFloat?_eq_none_iff t).mpr hvv] at hf
          cases hf
      simp [mapFloats, hf, hv, ih]

/-- A matched bracketed-array group whose whitespace-split tokens contain a
malformed float token (the condition under which the source's
`extract_array` raises `ValueError`). -/
def badArr (o : Option (List Char)) : Bool :=
  match o with
  | none => false
  | some g => (splitWs g).any (fun t => !validFloatStr t)

/-- A matched scalar group that is a malformed float token. -/
def badNum (o : Option (List Char)) : Bool :=
  match o with
  | none => false
  | some g => !validFloatStr g

/-- The exact condition under which `extract_pdf_dict_fields` raises: one of
the five numeric patterns matched, and the matched text is not well-formed
numeric text. -/
def extractRaises (raw : String) : Bool :=
  badArr (scan (arrAt ('C' :: [])) raw.data) ||
  badArr (scan (arrAt ('I' :: 'C' :: [])) raw.data) ||
  badNum (scan (numAt ('C' :: 'A' :: [])) raw.data) ||
  badNum (scan (numAt ('L' :: 'W' :: [])) raw.data) ||
  badArr (scan (arrAt ('D' :: [])) raw.data)

theorem getArr_eq_error_iff (key cs : List Char) :
    getArr key cs = .error () ↔ badArr (scan (arrAt key) cs) = true := by
  unfold getArr badArr
  cases hs : scan (arrAt key) cs with
  | none => simp
  | some g =>
    unfold floatList?
    cases hm : mapFloats (splitWs g) with
    | none =>
      simp [hm, (mapFloats_eq_none_iff (splitWs g)).mp hm]
    | some l =>
      have hb : ¬(splitWs g).any (fun t => !validFloatStr t) = true := by
        rw [← mapFloats_eq_none_iff]
        simp [hm]
      simp [hm, hb]

theorem getNum_eq_error_iff (key cs : List Char) :
    getNum key cs = .error () ↔ badNum (scan (numAt key) cs) = true := by
  unfold getNum badNum
  cases hs : scan (numAt key) cs with
  | none => simp
  | some g =>
    cases hm : pyFloat? g with
    | none =>
      have hv := (pyFloat?_eq_none_iff g).mp hm
      simp [hm, hv]
    | some v =>
      have hv : validFloatStr g = true := by
        cases hvv : validFloatStr g with
        | true => rfl
        | false =>
          rw [(pyFloat?_eq_none_iff g).mpr hvv] at hm
          cases hm
      simp [hm, hv]

theorem getArr_ok_badArr_false (key cs : List Char) (l : Option (List Rat))
    (h : getArr key cs = .ok l) : badArr (scan (arrAt key) cs) = false := by
  cases hb : badArr (scan (arrAt key) cs) with
  | false => rfl
  | true =>
    rw [(getArr_eq_error_iff key cs).mpr hb] at h
    cases h

theorem getNum_ok_badNum_false (key cs : List Char) (l : Option Rat)
    (h : getNum key cs = .ok l) : badNum (scan (numAt key) cs) = false := by
  cases hb : badNum (scan (numAt key) cs) with
  | false => rfl
  | true =>
    rw [(getNum_eq_error_iff key cs).mpr hb] at h
    cases h

/-- C3 (amended): `extract` raises exactly when one of the five numeric
patterns matches text that is not a well-formed number (at most one dot and
at least one digit, e.g. a bare `.`); a key whose following text does not
match its numeric pattern at all is treated as absent and omitted, with no
partial value emitted. -/
theorem extract_pdf_dict_fields_error_iff (raw : String) :
    extract_pdf_dict_fields raw = .error () ↔ extractRaises raw = true := by
  unfold extractRaises
  cases h1 : getArr ('C' :: []) raw.data with
  | error u =>
    cases u
    simp [extract_pdf_dict_fields, bind, Except.bind, Functor.map, Except.map, h1, (getArr_eq_error_iff _ _).mp h1]
  | ok C =>
    have b1 := getArr_ok_badArr_false _ _ _ h1
    cases h2 : getArr ('I' :: 'C' :: []) raw.data with
    | error u =>
      cases u
      simp [extract_pdf_dict_fields, bind, Except.bind, Functor.map, Except.map, h1, h2, (getArr_eq_error_iff _ _).mp h2, b1]
    | ok IC =>
      have b2 := getArr_ok_badArr_false _ _ _ h2
      cases h3 : getNum ('C' :: 'A' :: []) raw.data with
      | error u =>
        cases u
        simp [extract_pdf_dict_fields, bind, Except.bind, Functor.map, Except.map, h1, h2, h3, (getNum_eq_error_iff _ _).mp h3, b1, b2]
      | ok CA =>
        have b3 := getNum_ok_badNum_false _ _ _ h3
        cases h4 : getNum ('L' :: 'W' :: []) raw.data with
        | error u =>
          cases u
          simp [extract_pdf_dict_fields, bind, Except.bind, Functor.map, Except.map, h1, h2, h3, h4,
            (getNum_eq_error_iff _ _).mp h4, b1, b2, b3]
        | ok LW =>
          have b4 := getNum_ok_badNum_false _ _ _ h4
          cases h5 : getArr ('D' :: []) raw.data with
          | error u =>
            cases u
            simp [extract_pdf_dict_fields, bind, Except.bind, Functor.map, Except.map, h1, h2, h3, h4, h5,
              (getArr_eq_error_iff _ _).mp h5, b1, b2, b3, b4]
          | ok D =>
            have b5 := getArr_ok_badArr_false _ _ _ h5
            simp [extract_pdf_dict_fields, bind, Except.bind, Functor.map, Except.map, pure, Except.pure, h1, h2, h3, h4, h5, b1, b2, b3, b4, b5]

/-- C3 counterexample: on the input `/CA .` the `CA` key marker is present
and followed by text matching the numeric pattern, but `float(".")` raises
`ValueError`, so `extract` raises instead of treating the key as absent and
returning. This falsifies "for every input string, extract returns without
raising". -/
theorem extract_pdf_dict_fields_raises_on_dot :
    extract_pdf_dict_fields "/CA ." = .error () := by rfl

/-! ## C4 — profile creation precedes document parsing -/

/-- Environment in which the downloaded document is malformed XML: parsing
fails, every insert succeeds. -/
def envParseFail : Env :=
  { inflate := fun _ => some []
    download := .ok "<BluebeamRevuToolSet"
    parseXml := fun _ => none
    profileInsert := .ok 1
    toolsetInsert := fun _ => .ok 0
    toolInsert := fun _ => .ok 0
    presetInsert := fun _ => .ok () }

/-- C4 counterexample: with a malformed document (the parse oracle fails)
and all inserts succeeding, the run aborts with the parse error *after* the
Profile record has been created (`profile = some 1`), so a run aborted by a
document parse error has created a record. In the source the Profile insert
(line 156) precedes `ET.fromstring` (line 165), contradicting the claimed
parse-before-profile ordering. -/
theorem import_bpx_parse_abort_keeps_profile :
    import_bpx envParseFail "k" "Bearer k" none =
      ⟨some 1, {}, .error .parseError⟩ := by rfl

/-- C4 (amended): the Profile record is created before the document is
parsed; a run aborted by a document parse error surfaces the error with no
partial summary, having created exactly the Profile record and no toolset,
tool, or preset records. -/
theorem import_bpx_profile_before_parse (env : Env) (apiKey authHeader : String)
    (projId : Option String) (x : String) (pid : Nat)
    (hk : apiKey ≠ "") (ha : authHeader = "Bearer " ++ apiKey)
    (hd : env.download = .ok x) (hp : env.profileInsert = .ok pid)
    (hx : env.parseXml x = none) :
    import_bpx env apiKey authHeader projId = ⟨some pid, {}, .error .parseError⟩ := by
  unfold import_bpx
  rw [if_neg]
  · simp only [hd, hp, hx]
  · simp [hk, ha]

/-- Witness for the amended C4 theorem at a concrete environment. -/
theorem import_bpx_profile_before_parse_witness :
    import_bpx envParseFail "key" "Bearer key" (some "p") =
      ⟨some 1, {}, .error .parseError⟩ :=
  import_bpx_profile_before_parse envParseFail "key" "Bearer key" (some "p")
    "<BluebeamRevuToolSet" 1 (by decide) rfl rfl rfl rfl

/-! ## C1 — a Tool insert failure aborts the run -/

/-- C1 (amended): a Tool-record creation failure is not caught: the item
loop aborts immediately with the fatal insert error; no warning is recorded,
the Preset step is skipped, and no further items are processed (the
remaining items `rest` are arbitrary and never examined). -/
theorem runItems_toolInsert_error_aborts (env : Env) (projId : Option String)
    (title : String) (tsIdx tsId : Nat) (item : Item) (rest : List Item)
    (i : Nat) (st : St) (raw : String) (subj it : Option String) (style : Style)
    (e : String)
    (hraw : item.rawHex.getD "" ≠ "")
    (hdec : decode_hex_zlib env.inflate (item.rawHex.getD "") = .ok raw)
    (hext : extract_pdf_dict_fields raw = .ok (subj, it, style))
    (hkind : map_tool_kind it ≠ "skip")
    (hins : env.toolInsert st.toolCalls = .error e) :
    runItems env projId title tsIdx tsId (item :: rest) i st =
      ({ st with toolCalls := st.toolCalls + 1 }, some (.toolInsertError e)) := by
  unfold runItems processItem
  rw [if_neg hraw]
  simp only [hdec]
  simp only [hext]
  rw [if_neg hkind]
  simp only [hins]

/-- Environment whose Tool inserts always fail; the document has two
toolsets, the first with two decodable items. -/
def envToolFail : Env :=
  { inflate := fun _ => some []
    download := .ok "doc"
    parseXml := fun _ => some ⟨[⟨none, [⟨some "00"⟩, ⟨some "00"⟩]⟩, ⟨none, [⟨some "00"⟩]⟩]⟩
    profileInsert := .ok 1
    toolsetInsert := fun k => .ok (100 + k)
    toolInsert := fun _ => .error "tool insert failed"
    presetInsert := fun _ => .ok () }

/-- C1 counterexample: the first Tool insert fails and the whole run aborts
with that error: no warning is recorded (`warnings = []`), the remaining
item of the first toolset and the entire second toolset are never processed
(`toolsets_imported = 1`), and no Tool is created. This falsifies "records a
warning, skips the Preset step, and continues the run with the next item; a
Tool-record creation failure never aborts the run". -/
theorem import_bpx_toolInsert_failure_aborts_run :
    (import_bpx envToolFail "k" "Bearer k" none).outcome =
        .error (.toolInsertError "tool insert failed") ∧
      (import_bpx envToolFail "k" "Bearer k" none).st.warnings = [] ∧
      (import_bpx envToolFail "k" "Bearer k" none).st.tools_imported = 0 ∧
      (import_bpx envToolFail "k" "Bearer k" none).st.toolsets_imported = 1 := by
  refine ⟨?_, ?_, ?_, ?_⟩ <;> rfl

/-- Witness for the amended C1 theorem at a concrete input. -/
theorem runItems_toolInsert_error_aborts_witness :
    runItems envToolFail none "T" 0 5 [⟨some "00"⟩, ⟨some "00"⟩] 0 {} =
      ({ toolCalls := 1 }, some (.toolInsertError "tool insert failed")) :=
  runItems_toolInsert_error_aborts envToolFail none "T" 0 5 ⟨some "00"⟩
    [⟨some "00"⟩] 0 {} "" none none {} "tool insert failed"
    (by decide) (by rfl) (by rfl) (by decide) (by rfl)

/-! ## Step lemmas for the orchestrator loops -/

theorem pyTake_length_le (n : Nat) (s : String) : (pyTake n s).length ≤ n := by
  show (s.data.take n).length ≤ n
  simp [List.length_take]

theorem titleStep_state (env : Env) (ts : ToolsetEl) (tsIdx : Nat) (st : St) :
    ((titleStep env ts tsIdx st).2.toolsets = st.toolsets) ∧
    ((titleStep env ts tsIdx st).2.toolsetCalls = st.toolsetCalls) ∧
    ((titleStep env ts tsIdx st).2.toolCalls = st.toolCalls) ∧
    ((titleStep env ts tsIdx st).2.presetCalls = st.presetCalls) ∧
    ((titleStep env ts tsIdx st).2.tools = st.tools) ∧
    ((titleStep env ts tsIdx st).2.presets = st.presets) ∧
    ((titleStep env ts tsIdx st).2.toolsets_imported = st.toolsets_imported) ∧
    ((titleStep env ts tsIdx st).2.tools_imported = st.tools_imported) ∧
    ((titleStep env ts tsIdx st).2.presets_created = st.presets_created) := by
  unfold titleStep
  split
  · exact ⟨rfl, rfl, rfl, rfl, rfl, rfl, rfl, rfl, rfl⟩
  · split
    · exact ⟨rfl, rfl, rfl, rfl, rfl, rfl, rfl, rfl, rfl⟩
    · exact ⟨rfl, rfl, rfl, rfl, rfl, rfl, rfl, rfl, rfl⟩

/-- Case analysis of one item step that aborts: the uncaught raises
(`ValueError` from extraction, `RuntimeError` from the tool insert) commit
no record and no warning. -/
theorem processItem_inr_spec (env : Env) (projId : Option String) (title : String)
    (tsIdx tsId : Nat) (item : Item) (i : Nat) (st st' : St) (f : Fatal)
    (h : processItem env projId title tsIdx tsId item i st = .inr (st', f)) :
    st'.toolsets = st.toolsets ∧ st'.toolsetCalls = st.toolsetCalls ∧
    st'.tools = st.tools ∧ st'.presets = st.presets ∧
    st'.toolsets_imported = st.toolsets_imported ∧
    st'.tools_imported = st.tools_imported ∧
    st'.presets_created = st.presets_created ∧ st'.warnings = st.warnings := by
  simp only [processItem] at h
  split at h
  · exact Sum.noConfusion h
  · split at h
    · exact Sum.noConfusion h
    · split at h
      · simp only [Sum.inr.injEq, Prod.mk.injEq] at h
        obtain ⟨h1, -⟩ := h
        subst h1
        exact ⟨rfl, rfl, rfl, rfl, rfl, rfl, rfl, rfl⟩
      · split at h
        · exact Sum.noConfusion h
        · split at h
          · simp only [Sum.inr.injEq, Prod.mk.injEq] at h
            obtain ⟨h1, -⟩ := h
            subst h1
            exact ⟨rfl, rfl, rfl, rfl, rfl, rfl, rfl, rfl⟩
          · split at h
            · exact Sum.noConfusion h
            · exact Sum.noConfusion h

/-- Case analysis of one item step that continues: either the item was
skipped (empty payload, decode failure, or skip classification) and no
record was created, or exactly one Tool row was appended — carrying the item
index as `sort_index`, the owning toolset id, and a 4000-character-bounded
`raw_decoded` — together with at most one Preset row carrying ordering key
`tsIdx * 1000 + i`. -/
theorem processItem_inl_spec (env : Env) (projId : Option String) (title : String)
    (tsIdx tsId : Nat) (item : Item) (i : Nat) (st st' : St)
    (h : processItem env projId title tsIdx tsId item i st = .inl st') :
    st'.toolsets = st.toolsets ∧ st'.toolsetCalls = st.toolsetCalls ∧
    st'.toolsets_imported = st.toolsets_imported ∧
    ((st'.tools = st.tools ∧ st'.presets = st.presets) ∨
     (∃ rec : ToolRec, st'.tools = st.tools ++ [rec] ∧ rec.sort_index = i ∧
        rec.toolset_id = tsId ∧ rec.raw_decoded.length ≤ 4000 ∧
        (st'.presets = st.presets ∨
         ∃ p : PresetRec, st'.presets = st.presets ++ [p] ∧
           p.sort_index = tsIdx * 1000 + i))) := by
  simp only [processItem] at h
  split at h
  · simp only [Sum.inl.injEq] at h
    subst h
    exact ⟨rfl, rfl, rfl, Or.inl ⟨rfl, rfl⟩⟩
  · split at h
    · simp only [Sum.inl.injEq] at h
      subst h
      exact ⟨rfl, rfl, rfl, Or.inl ⟨rfl, rfl⟩⟩
    · split at h
      · exact Sum.noConfusion h
      · split at h
        · simp only [Sum.inl.injEq] at h
          subst h
          exact ⟨rfl, rfl, rfl, Or.inl ⟨rfl, rfl⟩⟩
        · split at h
          · exact Sum.noConfusion h
          · split at h
            · simp only [Sum.inl.injEq] at h
              subst h
              refine ⟨rfl, rfl, rfl, Or.inr ⟨_, rfl, rfl, rfl, pyTake_length_le _ _, ?_⟩⟩
              exact Or.inr ⟨_, rfl, rfl⟩
            · simp only [Sum.inl.injEq] at h
              subst h
              refine ⟨rfl, rfl, rfl, Or.inr ⟨_, rfl, rfl, rfl, pyTake_length_le _ _, ?_⟩⟩
              exact Or.inl rfl

/-- The item loop never touches the toolset table or its counters. -/
theorem runItems_toolsets_eq (env : Env) (projId : Option String) (title : String)
    (tsIdx tsId : Nat) :
    ∀ (items : List Item) (i : Nat) (st : St),
      ((runItems env projId title tsIdx tsId items i st).1.toolsets = st.toolsets) ∧
      ((runItems env projId title tsIdx tsId items i st).1.toolsetCalls = st.toolsetCalls) ∧
      ((runItems env projId title tsIdx tsId items i st).1.toolsets_imported
        = st.toolsets_imported) := by
  intro items
  induction items with
  | nil => intro i st; exact ⟨rfl, rfl, rfl⟩
  | cons item rest ih =>
    intro i st
    unfold runItems
    cases hp : processItem env projId title tsIdx tsId item i st with
    | inl st1 =>
      obtain ⟨h1, h2, h3, -⟩ := processItem_inl_spec env projId title tsIdx tsId item i st st1 hp
      obtain ⟨g1, g2, g3⟩ := ih (i + 1) st1
      simp only [hp]
      exact ⟨g1.trans h1, g2.trans h2, g3.trans h3⟩
    | inr p =>
      obtain ⟨st1, f⟩ := p
      obtain ⟨h1, h2, -, -, h5, -⟩ := processItem_inr_spec env projId title tsIdx tsId item i st st1 f hp
      simp only [hp]
      exact ⟨h1, h2, h5⟩

/-- Tools created by the item loop extend the trace in order: their
`sort_index` values are strictly increasing, each equals an item position in
`[i, i + items.length)`, each row carries the owning toolset id, and each
stored `raw_decoded` is at most 4000 characters. -/
theorem runItems_tools_spec (env : Env) (projId : Option String) (title : String)
    (tsIdx tsId : Nat) :
    ∀ (items : List Item) (i : Nat) (st : St),
      ∃ new : List ToolRec,
        ((runItems env projId title tsIdx tsId items i st).1).tools = st.tools ++ new ∧
        List.Chain' (fun a b => a < b) (new.map ToolRec.sort_index) ∧
        ∀ t ∈ new, i ≤ t.sort_index ∧ t.sort_index < i + items.length ∧
          t.raw_decoded.length ≤ 4000 ∧ t.toolset_id = tsId := by
  intro items
  induction items with
  | nil =>
    intro i st
    exact ⟨[], by simp [runItems], by simp, by simp⟩
  | cons item rest ih =>
    intro i st
    unfold runItems
    cases hp : processItem env projId title tsIdx tsId item i st with
    | inr p =>
      obtain ⟨st1, f⟩ := p
      obtain ⟨-, -, ht, -⟩ := processItem_inr_spec env projId title tsIdx tsId item i st st1 f hp
      simp only [hp]
      exact ⟨[], by simp [ht], by simp, by simp⟩
    | inl st1 =>
      obtain ⟨-, -, -, hcase⟩ := processItem_inl_spec env projId title tsIdx tsId item i st st1 hp
      obtain ⟨new, hnew, hchain, hbound⟩ := ih (i + 1) st1
      simp only [hp]
      rcases hcase with ⟨ht, -⟩ | ⟨rec, hrec, hsort, htsid, hlen, -⟩
      · refine ⟨new, by rw [hnew, ht], hchain, ?_⟩
        intro t htm
        obtain ⟨b1, b2, b3, b4⟩ := hbound t htm
        refine ⟨by omega, ?_, b3, b4⟩
        simp only [List.length_cons]
        omega
      · refine ⟨rec :: new, ?_, ?_, ?_⟩
        · rw [hnew, hrec, List.append_assoc, List.singleton_append]
        · rw [List.map_cons, List.chain'_cons']
          refine ⟨?_, hchain⟩
          intro y hy
          have hy2 : y ∈ new.map ToolRec.sort_index := List.mem_of_mem_head? hy
          obtain ⟨t, htm, rfl⟩ := List.mem_map.mp hy2
          have := (hbound t htm).1
          omega
        · intro t htm
          rcases List.mem_cons.mp htm with rfl | htm2
          · refine ⟨by omega, ?_, hlen, htsid⟩
            simp only [List.length_cons]
            omega
          · obtain ⟨b1, b2, b3, b4⟩ := hbound t htm2
            refine ⟨by omega, ?_, b3, b4⟩
            simp only [List.length_cons]
            omega

/-- Presets created by the item loop extend the trace in order: their
ordering keys are strictly increasing and lie in
`[tsIdx * 1000 + i, tsIdx * 1000 + i + items.length)`. -/
theorem runItems_presets_spec (env : Env) (projId : Option String) (title : String)
    (tsIdx tsId : Nat) :
    ∀ (items : List Item) (i : Nat) (st : St),
      ∃ new : List PresetRec,
        ((runItems env projId title tsIdx tsId items i st).1).presets = st.presets ++ new ∧
        List.Chain' (fun a b => a < b) (new.map PresetRec.sort_index) ∧
        ∀ p ∈ new, tsIdx * 1000 + i ≤ p.sort_index ∧
          p.sort_index < tsIdx * 1000 + i + items.length := by
  intro items
  induction items with
  | nil =>
    intro i st
    exact ⟨[], by simp [runItems], by simp, by simp⟩
  | cons item rest ih =>
    intro i st
    unfold runItems
    cases hp : processItem env projId title tsIdx tsId item i st with
    | inr p =>
      obtain ⟨st1, f⟩ := p
      obtain ⟨-, -, -, hpr, -⟩ := processItem_inr_spec env projId title tsIdx tsId item i st st1 f hp
      simp only [hp]
      exact ⟨[], by simp [hpr], by simp, by simp⟩
    | inl st1 =>
      obtain ⟨-, -, -, hcase⟩ := processItem_inl_spec env projId title tsIdx tsId item i st st1 hp
      obtain ⟨new, hnew, hchain, hbound⟩ := ih (i + 1) st1
      simp only [hp]
      have hstep : st1.presets = st.presets ∨
          ∃ p : PresetRec, st1.presets = st.presets ++ [p] ∧
            p.sort_index = tsIdx * 1000 + i := by
        rcases hcase with ⟨-, hpr⟩ | ⟨rec, -, -, -, -, hpr⟩
        · exact Or.inl hpr
        · exact hpr
      rcases hstep with hpr | ⟨p, hpr, hps⟩
      · refine ⟨new, by rw [hnew, hpr], hchain, ?_⟩
        intro q hq
        obtain ⟨b1, b2⟩ := hbound q hq
        refine ⟨by omega, ?_⟩
        simp only [List.length_cons]
        omega
      · refine ⟨p :: new, ?_, ?_, ?_⟩
        · rw [hnew, hpr, List.append_assoc, List.singleton_append]
        · rw [List.map_cons, List.chain'_cons']
          refine ⟨?_, hchain⟩
          intro y hy
          have hy2 : y ∈ new.map PresetRec.sort_index := List.mem_of_mem_head? hy
          obtain ⟨q, hqm, rfl⟩ := List.mem_map.mp hy2
          have := (hbound q hqm).1
          omega
        · intro q hq
          rcases List.mem_cons.mp hq with rfl | hq2
          · refine ⟨by omega, ?_⟩
            simp only [List.length_cons]
            omega
          · obtain ⟨b1, b2⟩ := hbound q hq2
            refine ⟨by omega, ?_⟩
            simp only [List.length_cons]
            omega

/-- The item loop creates at most one Preset per created Tool. -/
theorem runItems_presets_le_tools (env : Env) (projId : Option String) (title : String)
    (tsIdx tsId : Nat) :
    ∀ (items : List Item) (i : Nat) (st : St),
      ((runItems env projId title tsIdx tsId items i st).1).presets.length + st.tools.length ≤
        ((runItems env projId title tsIdx tsId items i st).1).tools.length +
          st.presets.length := by
  intro items
  induction items with
  | nil => intro i st; simp [runItems]; omega
  | cons item rest ih =>
    intro i st
    unfold runItems
    cases hp : processItem env projId title tsIdx tsId item i st with
    | inr p =>
      obtain ⟨st1, f⟩ := p
      obtain ⟨-, -, ht, hpr, -⟩ := processItem_inr_spec env projId title tsIdx tsId item i st st1 f hp
      simp only [hp, ht, hpr]
      omega
    | inl st1 =>
      obtain ⟨-, -, -, hcase⟩ := processItem_inl_spec env projId title tsIdx tsId item i st st1 hp
      have hrec := ih (i + 1) st1
      simp only [hp]
      rcases hcase with ⟨ht, hpr⟩ | ⟨rec, ht, -, -, -, hpr⟩
      · rw [ht, hpr] at hrec
        exact hrec
      · rcases hpr with hpr | ⟨p, hpr, -⟩
        · rw [ht, hpr, List.length_append] at hrec
          simp only [List.length_singleton] at hrec
          omega
        · rw [ht, hpr, List.length_append, List.length_append] at hrec
          simp only [List.length_singleton] at hrec
          omega

/-- The state component of a loop-body outcome (both `continue` and raise
leave their committed state behind). -/
def outSt : St ⊕ (St × Fatal) → St
  | .inl s => s
  | .inr (s, _) => s

/-- Case analysis of one toolset step: either nothing was created (excluded
title or failed toolset insert; at most a title warning was added), or
exactly one Toolset row with `sort_index = tsIdx` was appended, together
with the tool and preset rows its item loop created: tools with strictly
increasing `sort_index` in `[0, items.length)` owned by the new toolset,
presets with strictly increasing ordering keys in
`[tsIdx * 1000, tsIdx * 1000 + items.length)`, and no more presets than
tools. -/
theorem processToolset_spec (env : Env) (projId : Option String) (profileId : Nat)
    (ts : ToolsetEl) (tsIdx : Nat) (st : St) :
    ((outSt (processToolset env projId profileId ts tsIdx st)).toolsets = st.toolsets ∧
     (outSt (processToolset env projId profileId ts tsIdx st)).tools = st.tools ∧
     (outSt (processToolset env projId profileId ts tsIdx st)).presets = st.presets) ∨
    (∃ r : ToolsetRec, ∃ newT : List ToolRec, ∃ newP : List PresetRec,
       (outSt (processToolset env projId profileId ts tsIdx st)).toolsets
           = st.toolsets ++ [r] ∧
         r.sort_index = tsIdx ∧ r.profile_id = profileId ∧
       (outSt (processToolset env projId profileId ts tsIdx st)).tools
           = st.tools ++ newT ∧
         List.Chain' (fun a b => a < b) (newT.map ToolRec.sort_index) ∧
         (∀ t ∈ newT, t.sort_index < ts.items.length ∧
            t.raw_decoded.length ≤ 4000 ∧ t.toolset_id = r.id) ∧
       (outSt (processToolset env projId profileId ts tsIdx st)).presets
           = st.presets ++ newP ∧
         List.Chain' (fun a b => a < b) (newP.map PresetRec.sort_index) ∧
         (∀ p ∈ newP, tsIdx * 1000 ≤ p.sort_index ∧
            p.sort_index < tsIdx * 1000 + ts.items.length) ∧
         newP.length ≤ newT.length) := by
  unfold processToolset
  cases hts : titleStep env ts tsIdx st with
  | mk title st1 =>
    have hst1 := titleStep_state env ts tsIdx st
    rw [hts] at hst1
    obtain ⟨e1, -, -, -, e5, e6, -⟩ := hst1
    have e1x : st1.toolsets = st.toolsets := e1
    have e5x : st1.tools = st.tools := e5
    have e6x : st1.presets = st.presets := e6
    simp only []
    split
    · exact Or.inl ⟨e1x, e5x, e6x⟩
    · cases hins : env.toolsetInsert st1.toolsetCalls with
      | error e => exact Or.inl ⟨e1x, e5x, e6x⟩
      | ok tsId =>
        simp only [hins]
        cases hr : runItems env projId title tsIdx tsId ts.items 0
            { st1 with
              toolsetCalls := st1.toolsetCalls + 1,
              toolsets := st1.toolsets ++
                [{ id := tsId, profile_id := profileId, title := title, sort_index := tsIdx }],
              toolsets_imported := st1.toolsets_imported + 1 } with
        | mk st3 fo =>
          have htse := runItems_toolsets_eq env projId title tsIdx tsId ts.items 0
            { st1 with
              toolsetCalls := st1.toolsetCalls + 1,
              toolsets := st1.toolsets ++
                [{ id := tsId, profile_id := profileId, title := title, sort_index := tsIdx }],
              toolsets_imported := st1.toolsets_imported + 1 }
          obtain ⟨newT, hT, hTc, hTb⟩ := runItems_tools_spec env projId title tsIdx tsId ts.items 0
            { st1 with
              toolsetCalls := st1.toolsetCalls + 1,
              toolsets := st1.toolsets ++
                [{ id := tsId, profile_id := profileId, title := title, sort_index := tsIdx }],
              toolsets_imported := st1.toolsets_imported + 1 }
          obtain ⟨newP, hP, hPc, hPb⟩ := runItems_presets_spec env projId title tsIdx tsId ts.items 0
            { st1 with
              toolsetCalls := st1.toolsetCalls + 1,
              toolsets := st1.toolsets ++
                [{ id := tsId, profile_id := profileId, title := title, sort_index := tsIdx }],
              toolsets_imported := st1.toolsets_imported + 1 }
          have hle := runItems_presets_le_tools env projId title tsIdx tsId ts.items 0
            { st1 with
              toolsetCalls := st1.toolsetCalls + 1,
              toolsets := st1.toolsets ++
                [{ id := tsId, profile_id := profileId, title := title, sort_index := tsIdx }],
              toolsets_imported := st1.toolsets_imported + 1 }
          rw [hr] at htse hT hP hle
          simp only at htse hT hP hle
          refine Or.inr ⟨⟨tsId, profileId, title, tsIdx⟩, newT, newP, ?_⟩
          have houtSt : outSt (match (st3, fo) with
              | (st3, none) => Sum.inl st3
              | (st3, some f) => Sum.inr (st3, f)) = st3 := by
            cases fo <;> rfl
          rw [houtSt]
          refine ⟨?_, rfl, rfl, ?_, hTc, ?_, ?_, hPc, ?_, ?_⟩
          · rw [htse.1, e1x]
          · rw [hT, e5x]
          · intro t htm
            obtain ⟨-, b2, b3, b4⟩ := hTb t htm
            exact ⟨by omega, b3, b4⟩
          · rw [hP, e6x]
          · intro p hpm
            obtain ⟨b1, b2⟩ := hPb p hpm
            exact ⟨by omega, by omega⟩
          · rw [hP, hT, List.length_append, List.length_append] at hle
            omega

/-- Toolset rows are created in document order: `sort_index` values are
strictly increasing, each is an element position in `[tsIdx, tsIdx +
tss.length)`, and each row carries the run's profile id. -/
theorem runToolsets_toolsets_spec (env : Env) (projId : Option String) (profileId : Nat) :
    ∀ (tss : List ToolsetEl) (tsIdx : Nat) (st : St),
      ∃ new : List ToolsetRec,
        ((runToolsets env projId profileId tss tsIdx st).1).toolsets = st.toolsets ++ new ∧
        List.Chain' (fun a b => a < b) (new.map ToolsetRec.sort_index) ∧
        ∀ r ∈ new, tsIdx ≤ r.sort_index ∧ r.sort_index < tsIdx + tss.length ∧
          r.profile_id = profileId := by
  intro tss
  induction tss with
  | nil =>
    intro tsIdx st
    exact ⟨[], by simp [runToolsets], by simp, by simp⟩
  | cons ts rest ih =>
    intro tsIdx st
    unfold runToolsets
    have hspec := processToolset_spec env projId profileId ts tsIdx st
    cases hq : processToolset env projId profileId ts tsIdx st with
    | inl st1 =>
      rw [hq] at hspec
      simp only [outSt] at hspec
      obtain ⟨new2, hnew2, hchain2, hbound2⟩ := ih (tsIdx + 1) st1
      simp only [hq]
      rcases hspec with ⟨h1, -, -⟩ | ⟨r, newT, newP, h1, hsort, hpid, -⟩
      · refine ⟨new2, by rw [hnew2, h1], hchain2, ?_⟩
        intro x hx
        obtain ⟨b1, b2, b3⟩ := hbound2 x hx
        refine ⟨by omega, ?_, b3⟩
        simp only [List.length_cons]
        omega
      · refine ⟨r :: new2, ?_, ?_, ?_⟩
        · rw [hnew2, h1, List.append_assoc, List.singleton_append]
        · rw [List.map_cons, List.chain'_cons']
          refine ⟨?_, hchain2⟩
          intro y hy
          obtain ⟨x, hxm, rfl⟩ := List.mem_map.mp (List.mem_of_mem_head? hy)
          have := (hbound2 x hxm).1
          omega
        · intro x hx
          rcases List.mem_cons.mp hx with rfl | hx2
          · refine ⟨by omega, ?_, hpid⟩
            simp only [List.length_cons]
            omega
          · obtain ⟨b1, b2, b3⟩ := hbound2 x hx2
            refine ⟨by omega, ?_, b3⟩
            simp only [List.length_cons]
            omega
    | inr p =>
      obtain ⟨st1, f⟩ := p
      rw [hq] at hspec
      simp only [outSt] at hspec
      simp only [hq]
      rcases hspec with ⟨h1, -, -⟩ | ⟨r, newT, newP, h1, hsort, hpid, -⟩
      · exact ⟨[], by simp [h1], by simp, by simp⟩
      · refine ⟨[r], by simp [h1], by simp, ?_⟩
        intro x hx
        rw [List.mem_singleton] at hx
        subst hx
        refine ⟨by omega, ?_, hpid⟩
        simp only [List.length_cons]
        omega

/-- When every toolset element carries at most 1000 items, the preset
ordering keys created by the toolset loop are strictly increasing in
creation order, lying in `[tsIdx * 1000, (tsIdx + tss.length) * 1000)`. -/
theorem runToolsets_presets_spec (env : Env) (projId : Option String) (profileId : Nat) :
    ∀ (tss : List ToolsetEl) (tsIdx : Nat) (st : St),
      (∀ ts ∈ tss, ts.items.length ≤ 1000) →
      ∃ new : List PresetRec,
        ((runToolsets env projId profileId tss tsIdx st).1).presets = st.presets ++ new ∧
        List.Chain' (fun a b => a < b) (new.map PresetRec.sort_index) ∧
        ∀ p ∈ new, tsIdx * 1000 ≤ p.sort_index ∧
          p.sort_index < (tsIdx + tss.length) * 1000 := by
  intro tss
  induction tss with
  | nil =>
    intro tsIdx st hlen
    exact ⟨[], by simp [runToolsets], by simp, by simp⟩
  | cons ts rest ih =>
    intro tsIdx st hlen
    have hlen0 : ts.items.length ≤ 1000 := hlen ts (List.mem_cons_self ts rest)
    have hlenr : ∀ x ∈ rest, x.items.length ≤ 1000 := by
      intro x hx
      exact hlen x (List.mem_cons_of_mem ts hx)
    unfold runToolsets
    have hspec := processToolset_spec env projId profileId ts tsIdx st
    cases hq : processToolset env projId profileId ts tsIdx st with
    | inl st1 =>
      rw [hq] at hspec
      simp only [outSt] at hspec
      obtain ⟨new2, hnew2, hchain2, hbound2⟩ := ih (tsIdx + 1) st1 hlenr
      simp only [hq]
      rcases hspec with ⟨-, -, h1⟩ | ⟨r, newT, newP, -, -, -, -, -, -, hPE, hPc, hPb, -⟩
      · refine ⟨new2, by rw [hnew2, h1], hchain2, ?_⟩
        intro x hx
        obtain ⟨b1, b2⟩ := hbound2 x hx
        refine ⟨by omega, ?_⟩
        simp only [List.length_cons]
        have : (tsIdx + 1 + rest.length) * 1000 = (tsIdx + (rest.length + 1)) * 1000 := by ring
        omega
      · refine ⟨newP ++ new2, ?_, ?_, ?_⟩
        · rw [hnew2, hPE, List.append_assoc]
        · rw [List.map_append, List.chain'_append]
          refine ⟨hPc, hchain2, ?_⟩
          intro x hx y hy
          obtain ⟨q, hqm, rfl⟩ := List.mem_map.mp
            (List.mem_of_mem_getLast? hx)
          obtain ⟨q2, hq2m, rfl⟩ := List.mem_map.mp (List.mem_of_mem_head? hy)
          have hb1 := (hPb q hqm).2
          have hb2 := (hbound2 q2 hq2m).1
          omega
        · intro x hx
          rcases List.mem_append.mp hx with hx1 | hx2
          · obtain ⟨b1, b2⟩ := hPb x hx1
            refine ⟨b1, ?_⟩
            simp only [List.length_cons]
            have hq : tsIdx * 1000 + ts.items.length ≤ (tsIdx + 1) * 1000 := by omega
            have : (tsIdx + (rest.length + 1)) * 1000 = tsIdx * 1000 + (rest.length + 1) * 1000 := by ring
            omega
          · obtain ⟨b1, b2⟩ := hbound2 x hx2
            refine ⟨by omega, ?_⟩
            simp only [List.length_cons]
            have : (tsIdx + 1 + rest.length) * 1000 = (tsIdx + (rest.length + 1)) * 1000 := by ring
            omega
    | inr p =>
      obtain ⟨st1, f⟩ := p
      rw [hq] at hspec
      simp only [outSt] at hspec
      simp only [hq]
      rcases hspec with ⟨-, -, h1⟩ | ⟨r, newT, newP, -, -, -, -, -, -, hPE, hPc, hPb, -⟩
      · exact ⟨[], by simp [h1], by simp, by simp⟩
      · refine ⟨newP, by simp [hPE], hPc, ?_⟩
        intro x hx
        obtain ⟨b1, b2⟩ := hPb x hx
        refine ⟨b1, ?_⟩
        simp only [List.length_cons]
        have : (tsIdx + (rest.length + 1)) * 1000 = tsIdx * 1000 + (rest.length + 1) * 1000 := by ring
        omega

/-- The toolset loop creates at most one Preset per created Tool. -/
theorem runToolsets_presets_le_tools (env : Env) (projId : Option String) (profileId : Nat) :
    ∀ (tss : List ToolsetEl) (tsIdx : Nat) (st : St),
      ((runToolsets env projId profileId tss tsIdx st).1).presets.length + st.tools.length ≤
        ((runToolsets env projId profileId tss tsIdx st).1).tools.length +
          st.presets.length := by
  intro tss
  induction tss with
  | nil => intro tsIdx st; simp [runToolsets]; omega
  | cons ts rest ih =>
    intro tsIdx st
    unfold runToolsets
    have hspec := processToolset_spec env projId profileId ts tsIdx st
    cases hq : processToolset env projId profileId ts tsIdx st with
    | inl st1 =>
      rw [hq] at hspec
      simp only [outSt] at hspec
      have hrec := ih (tsIdx + 1) st1
      simp only [hq]
      rcases hspec with ⟨-, h2, h3⟩ | ⟨r, newT, newP, -, -, -, hTE, -, -, hPE, -, -, hle⟩
      · rw [h2, h3] at hrec
        exact hrec
      · rw [hTE, hPE, List.length_append, List.length_append] at hrec
        omega
    | inr p =>
      obtain ⟨st1, f⟩ := p
      rw [hq] at hspec
      simp only [outSt] at hspec
      simp only [hq]
      rcases hspec with ⟨-, h2, h3⟩ | ⟨r, newT, newP, -, -, -, hTE, -, -, hPE, -, -, hle⟩
      · rw [h2, h3]
        omega
      · rw [hTE, hPE, List.length_append, List.length_append]
        omega

/-- Every tool row committed by the toolset loop stores at most 4000
characters of decoded text. -/
theorem runToolsets_tools_bound (env : Env) (projId : Option String) (profileId : Nat) :
    ∀ (tss : List ToolsetEl) (tsIdx : Nat) (st : St),
      (∀ t ∈ st.tools, t.raw_decoded.length ≤ 4000) →
      ∀ t ∈ ((runToolsets env projId profileId tss tsIdx st).1).tools,
        t.raw_decoded.length ≤ 4000 := by
  intro tss
  induction tss with
  | nil =>
    intro tsIdx st hinv
    simpa [runToolsets] using hinv
  | cons ts rest ih =>
    intro tsIdx st hinv
    unfold runToolsets
    have hspec := processToolset_spec env projId profileId ts tsIdx st
    cases hq : processToolset env projId profileId ts tsIdx st with
    | inl st1 =>
      rw [hq] at hspec
      simp only [outSt] at hspec
      simp only [hq]
      have hinv1 : ∀ t ∈ st1.tools, t.raw_decoded.length ≤ 4000 := by
        rcases hspec with ⟨-, h2, -⟩ | ⟨r, newT, newP, -, -, -, hTE, -, hTb, -⟩
        · rw [h2]; exact hinv
        · rw [hTE]
          intro t htm
          rcases List.mem_append.mp htm with htm1 | htm2
          · exact hinv t htm1
          · exact (hTb t htm2).2.1
      exact ih (tsIdx + 1) st1 hinv1
    | inr p =>
      obtain ⟨st1, f⟩ := p
      rw [hq] at hspec
      simp only [outSt] at hspec
      simp only [hq]
      rcases hspec with ⟨-, h2, -⟩ | ⟨r, newT, newP, -, -, -, hTE, -, hTb, -⟩
      · rw [h2]; exact hinv
      · rw [hTE]
        intro t htm
        rcases List.mem_append.mp htm with htm1 | htm2
        · exact hinv t htm1
        · exact (hTb t htm2).2.1

/-! ## Item-creation step lemmas, C9 and C10 -/

theorem decode_hex_zlib_whitespace (inflate : List Nat → Option (List Nat))
    (s : String) (h : s.data.all isSpaceChar = true) :
    decode_hex_zlib inflate s = .ok "" := by
  unfold decode_hex_zlib
  rw [(pyStrip_eq_empty_iff s).mpr h]
  simp

/-- One item step that creates a Tool whose Preset insert succeeds. -/
theorem runItems_cons_created_presetOk (env : Env) (projId : Option String)
    (title : String) (tsIdx tsId : Nat) (item : Item) (rest : List Item)
    (i : Nat) (st : St) (raw : String) (subj it : Option String) (style : Style)
    (toolId : Nat)
    (hraw : item.rawHex.getD "" ≠ "")
    (hdec : decode_hex_zlib env.inflate (item.rawHex.getD "") = .ok raw)
    (hext : extract_pdf_dict_fields raw = .ok (subj, it, style))
    (hkind : map_tool_kind it ≠ "skip")
    (hins : env.toolInsert st.toolCalls = .ok toolId)
    (hpre : env.presetInsert st.presetCalls = .ok ()) :
    runItems env projId title tsIdx tsId (item :: rest) i st =
      runItems env projId title tsIdx tsId rest (i + 1)
        { st with
          toolCalls := st.toolCalls + 1,
          tools := st.tools ++
            [{ id := toolId, toolset_id := tsId, name := toolName subj i,
               tool_kind := map_tool_kind it, sort_index := i,
               raw_decoded := pyTake 4000 raw, style_json := style,
               mapping_it := it, mapping_category := title }],
          tools_imported := st.tools_imported + 1,
          presetCalls := st.presetCalls + 1,
          presets := st.presets ++
            [{ project_id := projId, name := toolName subj i,
               tool_type := map_tool_kind it, category := title,
               style_json := style, sort_index := tsIdx * 1000 + i,
               bluebeam_tool_id := toolId }],
          presets_created := st.presets_created + 1 } := by
  simp only [runItems]
  simp only [processItem]
  rw [if_neg hraw]
  simp only [hdec]
  simp only [hext]
  rw [if_neg hkind]
  simp only [hins]
  simp only [hpre]

/-- One item step that creates a Tool whose Preset insert fails: the failure
is caught, a warning naming the tool is appended, the Tool row stays, and
the loop continues with the next item. -/
theorem runItems_cons_created_presetErr (env : Env) (projId : Option String)
    (title : String) (tsIdx tsId : Nat) (item : Item) (rest : List Item)
    (i : Nat) (st : St) (raw : String) (subj it : Option String) (style : Style)
    (toolId : Nat) (e : String)
    (hraw : item.rawHex.getD "" ≠ "")
    (hdec : decode_hex_zlib env.inflate (item.rawHex.getD "") = .ok raw)
    (hext : extract_pdf_dict_fields raw = .ok (subj, it, style))
    (hkind : map_tool_kind it ≠ "skip")
    (hins : env.toolInsert st.toolCalls = .ok toolId)
    (hpre : env.presetInsert st.presetCalls = .error e) :
    runItems env projId title tsIdx tsId (item :: rest) i st =
      runItems env projId title tsIdx tsId rest (i + 1)
        { st with
          toolCalls := st.toolCalls + 1,
          tools := st.tools ++
            [{ id := toolId, toolset_id := tsId, name := toolName subj i,
               tool_kind := map_tool_kind it, sort_index := i,
               raw_decoded := pyTake 4000 raw, style_json := style,
               mapping_it := it, mapping_category := title }],
          tools_imported := st.tools_imported + 1,
          presetCalls := st.presetCalls + 1,
          warnings := st.warnings ++
            ["Failed preset for \x27" ++ toolName subj i ++ "\x27: " ++ e] } := by
  simp only [runItems]
  simp only [processItem]
  rw [if_neg hraw]
  simp only [hdec]
  simp only [hext]
  rw [if_neg hkind]
  simp only [hins]
  simp only [hpre]

/-- C9: a tool item whose raw payload text is non-empty but all whitespace
is not skipped as an empty payload: the payload decodes to empty text, the
item classifies as `count`, and a Tool record with the positional fallback
name, empty decoded text, and empty style is created, with its Preset
attempted (created here, where the preset insert succeeds). -/
theorem whitespace_payload_creates_count_tool (env : Env) (projId : Option String)
    (title : String) (tsIdx tsId : Nat) (s : String) (rest : List Item)
    (i : Nat) (st : St) (toolId : Nat)
    (hs : s ≠ "")
    (hws : s.data.all isSpaceChar = true)
    (hins : env.toolInsert st.toolCalls = .ok toolId)
    (hpre : env.presetInsert st.presetCalls = .ok ()) :
    runItems env projId title tsIdx tsId (⟨some s⟩ :: rest) i st =
      runItems env projId title tsIdx tsId rest (i + 1)
        { st with
          toolCalls := st.toolCalls + 1,
          tools := st.tools ++
            [{ id := toolId, toolset_id := tsId, name := fallbackToolName i,
               tool_kind := "count", sort_index := i, raw_decoded := "",
               style_json := {}, mapping_it := none, mapping_category := title }],
          tools_imported := st.tools_imported + 1,
          presetCalls := st.presetCalls + 1,
          presets := st.presets ++
            [{ project_id := projId, name := fallbackToolName i,
               tool_type := "count", category := title, style_json := {},
               sort_index := tsIdx * 1000 + i, bluebeam_tool_id := toolId }],
          presets_created := st.presets_created + 1 } := by
  have hraw : (Item.rawHex ⟨some s⟩).getD "" ≠ "" := by
    simpa using hs
  have hdec : decode_hex_zlib env.inflate ((Item.rawHex ⟨some s⟩).getD "") = .ok "" := by
    simpa using decode_hex_zlib_whitespace env.inflate s hws
  have hext : extract_pdf_dict_fields "" = .ok (none, none, {}) := by rfl
  have hkind : map_tool_kind none ≠ "skip" := by decide
  exact runItems_cons_created_presetOk env projId title tsIdx tsId ⟨some s⟩ rest i st
    "" none none {} toolId hraw hdec hext hkind hins hpre

/-- C10: every Tool record a run commits stores at most 4000 characters of
decoded text, and the stored text is exactly the decoded payload truncated
to its first 4000 characters while the name, kind, style, and sort_index
are computed from the untruncated decoded text. -/
theorem tool_raw_decoded_truncated :
    (∀ (env : Env) (apiKey authHeader : String) (projId : Option String),
       ∀ t ∈ (import_bpx env apiKey authHeader projId).st.tools,
         t.raw_decoded.length ≤ 4000) ∧
    (∀ (env : Env) (projId : Option String) (title : String) (tsIdx tsId : Nat)
       (item : Item) (rest : List Item) (i : Nat) (st : St) (raw : String)
       (subj it : Option String) (style : Style) (toolId : Nat),
       item.rawHex.getD "" ≠ "" →
       decode_hex_zlib env.inflate (item.rawHex.getD "") = .ok raw →
       extract_pdf_dict_fields raw = .ok (subj, it, style) →
       map_tool_kind it ≠ "skip" →
       env.toolInsert st.toolCalls = .ok toolId →
       ∃ st' : St,
         runItems env projId title tsIdx tsId (item :: rest) i st =
           runItems env projId title tsIdx tsId rest (i + 1) st' ∧
         st'.tools = st.tools ++
           [{ id := toolId, toolset_id := tsId, name := toolName subj i,
              tool_kind := map_tool_kind it, sort_index := i,
              raw_decoded := pyTake 4000 raw, style_json := style,
              mapping_it := it, mapping_category := title }]) := by
  constructor
  · intro env apiKey authHeader projId
    unfold import_bpx
    split
    · intro t ht; simp at ht
    · cases hd : env.download with
      | error e => intro t ht; simp only [hd] at ht; simp at ht
      | ok x =>
        cases hp : env.profileInsert with
        | error e => intro t ht; simp only [hd, hp] at ht; simp at ht
        | ok pid =>
          cases hpx : env.parseXml x with
          | none => intro t ht; simp only [hd, hp, hpx] at ht; simp at ht
          | some doc =>
            intro t ht
            simp only [hd, hp, hpx] at ht
            cases hrt : runToolsets env projId pid doc.toolsets 0 {} with
            | mk st0 fo =>
              rw [hrt] at ht
              have hb := runToolsets_tools_bound env projId pid doc.toolsets 0 {}
                (by intro y hy; simp at hy) t
              rw [hrt] at hb
              cases fo with
              | none => simp only at ht; exact hb ht
              | some f => simp only at ht; exact hb ht
  · intro env projId title tsIdx tsId item rest i st raw subj it style toolId
      hraw hdec hext hkind hins
    cases hpre : env.presetInsert st.presetCalls with
    | ok u =>
      cases u
      refine ⟨_, runItems_cons_created_presetOk env projId title tsIdx tsId item rest
        i st raw subj it style toolId hraw hdec hext hkind hins hpre, rfl⟩
    | error e =>
      refine ⟨_, runItems_cons_created_presetErr env projId title tsIdx tsId item rest
        i st raw subj it style toolId e hraw hdec hext hkind hins hpre, rfl⟩

/-- All-successful record store over a document with one single-item
toolset (payloads inflate to empty text). -/
def envRun : Env :=
  { inflate := fun _ => some []
    download := .ok "doc"
    parseXml := fun _ => some ⟨[⟨none, [⟨some "00"⟩]⟩]⟩
    profileInsert := .ok 1
    toolsetInsert := fun k => .ok (10 + k)
    toolInsert := fun k => .ok (20 + k)
    presetInsert := fun _ => .ok () }

/-- Witness for the C9 theorem at a concrete whitespace-only payload. -/
theorem whitespace_payload_creates_count_tool_witness :
    runItems envRun (some "p") "Cat" 2 9 [⟨some " "⟩] 4 {} =
      runItems envRun (some "p") "Cat" 2 9 [] 5
        { toolCalls := 1,
          presetCalls := 1,
          tools := [{ id := 20, toolset_id := 9, name := "Tool 5", tool_kind := "count",
                      sort_index := 4, raw_decoded := "", style_json := {},
                      mapping_it := none, mapping_category := "Cat" }],
          presets := [{ project_id := some "p", name := "Tool 5", tool_type := "count",
                        category := "Cat", style_json := {}, sort_index := 2004,
                        bluebeam_tool_id := 20 }],
          tools_imported := 1,
          presets_created := 1 } :=
  whitespace_payload_creates_count_tool envRun (some "p") "Cat" 2 9 " " [] 4 {} 20
    (by decide) (by decide) (by rfl) (by rfl)

/-- Witness for the C10 theorem: the single tool created by `envRun`'s run
is within the 4000-character bound, and a concrete item step commits the
truncated text with name and style from the untruncated decode. -/
theorem tool_raw_decoded_truncated_witness :
    (({ id := 20, toolset_id := 10, name := "Tool 1", tool_kind := "count",
        sort_index := 0, raw_decoded := "", style_json := {}, mapping_it := none,
        mapping_category := "Toolset 1" } : ToolRec).raw_decoded.length ≤ 4000) ∧
    (∃ st' : St,
       runItems envRun none "T" 1 3 [⟨some "00"⟩] 2 {} =
         runItems envRun none "T" 1 3 [] 3 st' ∧
       st'.tools = ({} : St).tools ++
         [{ id := 20, toolset_id := 3, name := toolName none 2,
            tool_kind := map_tool_kind none, sort_index := 2,
            raw_decoded := pyTake 4000 "", style_json := {}, mapping_it := none,
            mapping_category := "T" }]) :=
  ⟨tool_raw_decoded_truncated.1 envRun "k" "Bearer k" none _ (by decide),
   tool_raw_decoded_truncated.2 envRun none "T" 1 3 ⟨some "00"⟩ [] 2 {} "" none none {}
     20 (by decide) (by rfl) (by rfl) (by decide) (by rfl)⟩

/-! ## C2 — sort_index assignment -/

/-- C2 (amended): `sort_index` values are assigned purely from raw document
positions and never from decoded content: Toolset rows carry strictly
increasing element positions in `[tsIdx, tsIdx + #elements)`, and Tool rows
within one toolset carry strictly increasing item positions in
`[i, i + #items)` counting every `ToolChestItem` (also empty-payload and
skipped ones). They are unique within their parent but not dense and not
zero-based when elements are skipped. -/
theorem sort_index_raw_document_order :
    (∀ (env : Env) (projId : Option String) (profileId : Nat) (tss : List ToolsetEl)
       (tsIdx : Nat) (st : St),
       ∃ new : List ToolsetRec,
         ((runToolsets env projId profileId tss tsIdx st).1).toolsets = st.toolsets ++ new ∧
         List.Chain' (fun a b => a < b) (new.map ToolsetRec.sort_index) ∧
         ∀ r ∈ new, tsIdx ≤ r.sort_index ∧ r.sort_index < tsIdx + tss.length) ∧
    (∀ (env : Env) (projId : Option String) (title : String) (tsIdx tsId : Nat)
       (items : List Item) (i : Nat) (st : St),
       ∃ new : List ToolRec,
         ((runItems env projId title tsIdx tsId items i st).1).tools = st.tools ++ new ∧
         List.Chain' (fun a b => a < b) (new.map ToolRec.sort_index) ∧
         ∀ t ∈ new, i ≤ t.sort_index ∧ t.sort_index < i + items.length ∧
           t.toolset_id = tsId) := by
  constructor
  · intro env projId profileId tss tsIdx st
    obtain ⟨new, h1, h2, h3⟩ := runToolsets_toolsets_spec env projId profileId tss tsIdx st
    exact ⟨new, h1, h2, fun r hr => ⟨(h3 r hr).1, (h3 r hr).2.1⟩⟩
  · intro env projId title tsIdx tsId items i st
    obtain ⟨new, h1, h2, h3⟩ := runItems_tools_spec env projId title tsIdx tsId items i st
    refine ⟨new, h1, h2, fun t ht => ?_⟩
    obtain ⟨b1, b2, -, b4⟩ := h3 t ht
    exact ⟨b1, b2, b4⟩

/-- A run whose document carries an excluded "Recent Tools" toolset first,
then an untitled toolset whose first item has an empty payload and whose
second decodes successfully. -/
def envSkips : Env :=
  { inflate := fun b =>
      if b = [170] then some ("Recent Tools".data.map Char.toNat) else some []
    download := .ok "doc"
    parseXml := fun _ => some ⟨[⟨some "aa", []⟩, ⟨none, [⟨none⟩, ⟨some "00"⟩]⟩]⟩
    profileInsert := .ok 1
    toolsetInsert := fun k => .ok (100 + k)
    toolInsert := fun k => .ok (200 + k)
    presetInsert := fun _ => .ok () }

/-- C2 counterexample: the excluded toolset still advances the element
index, so the only created Toolset has `sort_index = 1` — the values are
neither dense nor zero-based. The empty-payload item likewise advances the
item index: the only created Tool has `sort_index = 1` although its position
among the toolset's items with non-empty raw payloads is 0. -/
theorem sort_index_not_dense_counterexample :
    (import_bpx envSkips "k" "Bearer k" none).st.toolsets.map ToolsetRec.sort_index
        = [1] ∧
      (import_bpx envSkips "k" "Bearer k" none).st.tools.map ToolRec.sort_index
        = [1] ∧
      (import_bpx envSkips "k" "Bearer k" none).st.warnings = [] := by
  refine ⟨?_, ?_, ?_⟩ <;> rfl

/-! ## C8 — preset ordering keys -/

/-- C8 (amended): each created Preset's ordering key equals toolset element
index × 1000 + item index, where the item index counts every
`ToolChestItem` of the toolset (also empty-payload and skipped ones);
iterated in creation order the keys are strictly increasing provided every
toolset element carries at most 1000 items. With more than 1000 items in a
toolset the keys can collide across toolsets even when fewer than 1000
tools are created (see the counterexample). -/
theorem preset_sort_index_ordering :
    (∀ (env : Env) (projId : Option String) (profileId : Nat) (tss : List ToolsetEl)
       (tsIdx : Nat) (st : St),
       (∀ ts ∈ tss, ts.items.length ≤ 1000) →
       ∃ new : List PresetRec,
         ((runToolsets env projId profileId tss tsIdx st).1).presets = st.presets ++ new ∧
         List.Chain' (fun a b => a < b) (new.map PresetRec.sort_index) ∧
         ∀ p ∈ new, tsIdx * 1000 ≤ p.sort_index ∧
           p.sort_index < (tsIdx + tss.length) * 1000) ∧
    (∀ (env : Env) (projId : Option String) (title : String) (tsIdx tsId : Nat)
       (items : List Item) (i : Nat) (st : St),
       ∃ new : List PresetRec,
         ((runItems env projId title tsIdx tsId items i st).1).presets = st.presets ++ new ∧
         List.Chain' (fun a b => a < b) (new.map PresetRec.sort_index) ∧
         ∀ p ∈ new, ∃ j : Nat, i ≤ j ∧ j < i + items.length ∧
           p.sort_index = tsIdx * 1000 + j) := by
  constructor
  · exact runToolsets_presets_spec
  · intro env projId title tsIdx tsId items i st
    obtain ⟨new, h1, h2, h3⟩ := runItems_presets_spec env projId title tsIdx tsId items i st
    refine ⟨new, h1, h2, fun p hp => ?_⟩
    obtain ⟨b1, b2⟩ := h3 p hp
    exact ⟨p.sort_index - tsIdx * 1000, by omega, by omega, by omega⟩

/-- Witness for the C8 theorem at a concrete single-toolset document. -/
theorem preset_sort_index_ordering_witness :
    (∃ new : List PresetRec,
       ((runToolsets envRun none 1 [⟨none, [⟨some "00"⟩]⟩] 0 {}).1).presets
           = ({} : St).presets ++ new ∧
       List.Chain' (fun a b => a < b) (new.map PresetRec.sort_index) ∧
       ∀ p ∈ new, 0 * 1000 ≤ p.sort_index ∧
         p.sort_index < (0 + [ToolsetEl.mk none [⟨some "00"⟩]].length) * 1000) ∧
    (∃ new : List PresetRec,
       ((runItems envRun none "T" 0 3 [⟨some "00"⟩] 0 {}).1).presets
           = ({} : St).presets ++ new ∧
       List.Chain' (fun a b => a < b) (new.map PresetRec.sort_index) ∧
       ∀ p ∈ new, ∃ j : Nat, 0 ≤ j ∧ j < 0 + [Item.mk (some "00")].length ∧
         p.sort_index = 0 * 1000 + j) :=
  ⟨preset_sort_index_ordering.1 envRun none 1 [⟨none, [⟨some "00"⟩]⟩] 0 {}
     (by intro ts hts; simp at hts; subst hts; decide),
   preset_sort_index_ordering.2 envRun none "T" 0 3 [⟨some "00"⟩] 0 {}⟩

/-- A document whose first toolset holds 1000 empty items followed by one
decodable item, and whose second toolset holds one decodable item. -/
def envThousand : Env :=
  { inflate := fun _ => some []
    download := .ok "doc"
    parseXml := fun _ =>
      some ⟨[⟨none, List.replicate 1000 ⟨none⟩ ++ [⟨some "00"⟩]⟩, ⟨none, [⟨some "00"⟩]⟩]⟩
    profileInsert := .ok 1
    toolsetInsert := fun k => .ok k
    toolInsert := fun k => .ok k
    presetInsert := fun _ => .ok () }

set_option maxRecDepth 100000 in
/-- C8 counterexample: both toolsets create exactly one Tool each (fewer
than 1000 tools per toolset), yet the two Presets collide at ordering key
1000: the key uses the raw item index (1000 for the 1001st item of toolset
0; 0 for the first item of toolset 1), so "never collide for toolsets with
fewer than 1000 tools" is false — the real bound is on item count, not tool
count. -/
theorem preset_sort_index_collision_counterexample :
    (import_bpx envThousand "k" "Bearer k" none).st.presets.map PresetRec.sort_index
        = [1000, 1000] ∧
      (import_bpx envThousand "k" "Bearer k" none).st.tools.map
          (fun t => (t.toolset_id, t.sort_index)) = [(0, 1000), (1, 0)] := by
  refine ⟨?_, ?_⟩ <;> rfl

/-! ## C7 — preset failures are isolated -/

/-- Agreement of two environments on everything except the preset insert
oracle. -/
def EnvAgree (env₁ env₂ : Env) : Prop :=
  env₁.inflate = env₂.inflate ∧ env₁.download = env₂.download ∧
  env₁.parseXml = env₂.parseXml ∧ env₁.profileInsert = env₂.profileInsert ∧
  env₁.toolsetInsert = env₂.toolsetInsert ∧ env₁.toolInsert = env₂.toolInsert

/-- The preset-independent portion of the run state: everything except the
preset trace, the preset counters, and the warnings. -/
def StR (st₁ st₂ : St) : Prop :=
  st₁.toolsetCalls = st₂.toolsetCalls ∧ st₁.toolCalls = st₂.toolCalls ∧
  st₁.toolsets = st₂.toolsets ∧ st₁.tools = st₂.tools ∧
  st₁.toolsets_imported = st₂.toolsets_imported ∧
  st₁.tools_imported = st₂.tools_imported

theorem titleStep_preset_indep (env₁ env₂ : Env) (hinf : env₁.inflate = env₂.inflate)
    (ts : ToolsetEl) (tsIdx : Nat) (st₁ st₂ : St) (hR : StR st₁ st₂) :
    (titleStep env₁ ts tsIdx st₁).1 = (titleStep env₂ ts tsIdx st₂).1 ∧
    StR (titleStep env₁ ts tsIdx st₁).2 (titleStep env₂ ts tsIdx st₂).2 := by
  obtain ⟨q1, q2, q3, q4, q5, q6⟩ := hR
  unfold titleStep
  rw [← hinf]
  by_cases hc : (ts.titleHex.getD "") = ""
  · simp only [if_pos hc]
    exact ⟨by trivial, q1, q2, q3, q4, q5, q6⟩
  · simp only [if_neg hc]
    cases hdec : decode_hex_zlib env₁.inflate (ts.titleHex.getD "") with
    | ok t =>
      simp only [hdec]
      exact ⟨by trivial, q1, q2, q3, q4, q5, q6⟩
    | error e =>
      simp only [hdec]
      exact ⟨by trivial, q1, q2, q3, q4, q5, q6⟩

theorem processItem_preset_indep (env₁ env₂ : Env) (h : EnvAgree env₁ env₂)
    (projId₁ projId₂ : Option String) (title : String) (tsIdx tsId : Nat)
    (item : Item) (i : Nat) (st₁ st₂ : St) (hR : StR st₁ st₂) :
    (∃ st₁' st₂', processItem env₁ projId₁ title tsIdx tsId item i st₁ = .inl st₁' ∧
       processItem env₂ projId₂ title tsIdx tsId item i st₂ = .inl st₂' ∧
       StR st₁' st₂') ∨
    (∃ st₁' st₂' f, processItem env₁ projId₁ title tsIdx tsId item i st₁ = .inr (st₁', f) ∧
       processItem env₂ projId₂ title tsIdx tsId item i st₂ = .inr (st₂', f) ∧
       StR st₁' st₂') := by
  obtain ⟨hinf, -, -, -, -, htool⟩ := h
  obtain ⟨q1, q2, q3, q4, q5, q6⟩ := hR
  simp only [processItem]
  rw [← hinf, ← htool, ← q1, ← q2, ← q3, ← q4, ← q5, ← q6]
  by_cases h0 : item.rawHex.getD "" = ""
  · simp only [if_pos h0]
    exact Or.inl ⟨st₁, st₂, rfl, rfl, q1, q2, q3, q4, q5, q6⟩
  · simp only [if_neg h0]
    cases hdec : decode_hex_zlib env₁.inflate (item.rawHex.getD "") with
    | error e =>
      simp only [hdec]
      exact Or.inl ⟨_, _, rfl, rfl, rfl, rfl, rfl, rfl, rfl, rfl⟩
    | ok raw =>
      simp only [hdec]
      cases hext : extract_pdf_dict_fields raw with
      | error u =>
        simp only [hext]
        exact Or.inr ⟨st₁, st₂, .extractError, rfl, rfl, q1, q2, q3, q4, q5, q6⟩
      | ok trip =>
        obtain ⟨subj, it, style⟩ := trip
        simp only [hext]
        by_cases hk : map_tool_kind it = "skip"
        · simp only [if_pos hk]
          exact Or.inl ⟨st₁, st₂, rfl, rfl, q1, q2, q3, q4, q5, q6⟩
        · simp only [if_neg hk]
          cases hins : env₁.toolInsert st₁.toolCalls with
          | error e =>
            simp only [hins]
            exact Or.inr ⟨_, _, .toolInsertError e, rfl, rfl, rfl, rfl, rfl, rfl, rfl, rfl⟩
          | ok toolId =>
            simp only [hins]
            cases hp1 : env₁.presetInsert st₁.presetCalls with
            | ok u =>
              cases u
              simp only [hp1]
              cases hp2 : env₂.presetInsert st₂.presetCalls with
              | ok u2 =>
                cases u2
                simp only [hp2]
                exact Or.inl ⟨_, _, rfl, rfl, rfl, rfl, rfl, rfl, rfl, rfl⟩
              | error e2 =>
                simp only [hp2]
                exact Or.inl ⟨_, _, rfl, rfl, rfl, rfl, rfl, rfl, rfl, rfl⟩
            | error e =>
              simp only [hp1]
              cases hp2 : env₂.presetInsert st₂.presetCalls with
              | ok u2 =>
                cases u2
                simp only [hp2]
                exact Or.inl ⟨_, _, rfl, rfl, rfl, rfl, rfl, rfl, rfl, rfl⟩
              | error e2 =>
                simp only [hp2]
                exact Or.inl ⟨_, _, rfl, rfl, rfl, rfl, rfl, rfl, rfl, rfl⟩

theorem runItems_preset_indep (env₁ env₂ : Env) (h : EnvAgree env₁ env₂)
    (projId₁ projId₂ : Option String) (title : String) (tsIdx tsId : Nat) :
    ∀ (items : List Item) (i : Nat) (st₁ st₂ : St), StR st₁ st₂ →
      StR ((runItems env₁ projId₁ title tsIdx tsId items i st₁).1)
          ((runItems env₂ projId₂ title tsIdx tsId items i st₂).1) ∧
      ((runItems env₁ projId₁ title tsIdx tsId items i st₁).2)
          = ((runItems env₂ projId₂ title tsIdx tsId items i st₂).2) := by
  intro items
  induction items with
  | nil => intro i st₁ st₂ hR; exact ⟨hR, rfl⟩
  | cons item rest ih =>
    intro i st₁ st₂ hR
    unfold runItems
    rcases processItem_preset_indep env₁ env₂ h projId₁ projId₂ title tsIdx tsId
        item i st₁ st₂ hR with
      ⟨st₁', st₂', e1, e2, hR'⟩ | ⟨st₁', st₂', f, e1, e2, hR'⟩
    · simp only [e1, e2]
      exact ih (i + 1) st₁' st₂' hR'
    · simp only [e1, e2]
      exact ⟨hR', by trivial⟩

theorem processToolset_preset_indep (env₁ env₂ : Env) (h : EnvAgree env₁ env₂)
    (projId₁ projId₂ : Option String) (profileId : Nat) (ts : ToolsetEl)
    (tsIdx : Nat) (st₁ st₂ : St) (hR : StR st₁ st₂) :
    (∃ st₁' st₂', processToolset env₁ projId₁ profileId ts tsIdx st₁ = .inl st₁' ∧
       processToolset env₂ projId₂ profileId ts tsIdx st₂ = .inl st₂' ∧
       StR st₁' st₂') ∨
    (∃ st₁' st₂' f, processToolset env₁ projId₁ profileId ts tsIdx st₁ = .inr (st₁', f) ∧
       processToolset env₂ projId₂ profileId ts tsIdx st₂ = .inr (st₂', f) ∧
       StR st₁' st₂') := by
  unfold processToolset
  cases ht1 : titleStep env₁ ts tsIdx st₁ with
  | mk title₁ s₁ =>
    cases ht2 : titleStep env₂ ts tsIdx st₂ with
    | mk title₂ s₂ =>
      have hts := titleStep_preset_indep env₁ env₂ h.1 ts tsIdx st₁ st₂ hR
      rw [ht1, ht2] at hts
      obtain ⟨hteq, hsR⟩ := hts
      subst hteq
      obtain ⟨q1, q2, q3, q4, q5, q6⟩ := hsR
      simp only []
      rw [← h.2.2.2.2.1, ← q1, ← q2, ← q3, ← q4, ← q5, ← q6]
      by_cases hex : excludedTitle title₁ = true
      · simp only [if_pos hex]
        exact Or.inl ⟨s₁, s₂, rfl, rfl, q1, q2, q3, q4, q5, q6⟩
      · simp only [if_neg hex]
        cases hins : env₁.toolsetInsert s₁.toolsetCalls with
        | error e =>
          simp only [hins]
          exact Or.inr ⟨_, _, .toolsetInsertError e, rfl, rfl, rfl, rfl, rfl, rfl, rfl, rfl⟩
        | ok tsId =>
          simp only [hins]
          have hri := runItems_preset_indep env₁ env₂ h projId₁ projId₂ title₁ tsIdx tsId
            ts.items 0
            { s₁ with
              toolsetCalls := s₁.toolsetCalls + 1,
              toolsets := s₁.toolsets ++
                [{ id := tsId, profile_id := profileId, title := title₁, sort_index := tsIdx }],
              toolsets_imported := s₁.toolsets_imported + 1 }
            { toolsetCalls := s₁.toolsetCalls + 1, toolCalls := s₁.toolCalls,
              presetCalls := s₂.presetCalls,
              toolsets := s₁.toolsets ++
                [{ id := tsId, profile_id := profileId, title := title₁, sort_index := tsIdx }],
              tools := s₁.tools, presets := s₂.presets,
              toolsets_imported := s₁.toolsets_imported + 1,
              tools_imported := s₁.tools_imported,
              presets_created := s₂.presets_created, warnings := s₂.warnings }
            ⟨rfl, rfl, rfl, rfl, rfl, rfl⟩
          cases hr1 : runItems env₁ projId₁ title₁ tsIdx tsId ts.items 0
              { s₁ with
                toolsetCalls := s₁.toolsetCalls + 1,
                toolsets := s₁.toolsets ++
                  [{ id := tsId, profile_id := profileId, title := title₁, sort_index := tsIdx }],
                toolsets_imported := s₁.toolsets_imported + 1 } with
          | mk u₁ fo₁ =>
            cases hr2 : runItems env₂ projId₂ title₁ tsIdx tsId ts.items 0
                { toolsetCalls := s₁.toolsetCalls + 1, toolCalls := s₁.toolCalls,
                  presetCalls := s₂.presetCalls,
                  toolsets := s₁.toolsets ++
                    [{ id := tsId, profile_id := profileId, title := title₁, sort_index := tsIdx }],
                  tools := s₁.tools, presets := s₂.presets,
                  toolsets_imported := s₁.toolsets_imported + 1,
                  tools_imported := s₁.tools_imported,
                  presets_created := s₂.presets_created, warnings := s₂.warnings } with
            | mk u₂ fo₂ =>
              rw [hr1, hr2] at hri
              obtain ⟨huR, hfo⟩ := hri
              have huR2 : StR u₁ u₂ := huR
              have hfo2 : fo₁ = fo₂ := hfo
              cases fo₁ with
              | none =>
                subst hfo2
                exact Or.inl ⟨u₁, u₂, rfl, rfl, huR2⟩
              | some f =>
                subst hfo2
                exact Or.inr ⟨u₁, u₂, f, rfl, rfl, huR2⟩

theorem runToolsets_preset_indep (env₁ env₂ : Env) (h : EnvAgree env₁ env₂)
    (projId₁ projId₂ : Option String) (profileId : Nat) :
    ∀ (tss : List ToolsetEl) (tsIdx : Nat) (st₁ st₂ : St), StR st₁ st₂ →
      StR ((runToolsets env₁ projId₁ profileId tss tsIdx st₁).1)
          ((runToolsets env₂ projId₂ profileId tss tsIdx st₂).1) ∧
      ((runToolsets env₁ projId₁ profileId tss tsIdx st₁).2)
          = ((runToolsets env₂ projId₂ profileId tss tsIdx st₂).2) := by
  intro tss
  induction tss with
  | nil => intro tsIdx st₁ st₂ hR; exact ⟨hR, rfl⟩
  | cons ts rest ih =>
    intro tsIdx st₁ st₂ hR
    unfold runToolsets
    rcases processToolset_preset_indep env₁ env₂ h projId₁ projId₂ profileId ts tsIdx
        st₁ st₂ hR with
      ⟨st₁', st₂', e1, e2, hR'⟩ | ⟨st₁', st₂', f, e1, e2, hR'⟩
    · simp only [e1, e2]
      exact ih (tsIdx + 1) st₁' st₂' hR'
    · simp only [e1, e2]
      exact ⟨hR', by trivial⟩

/-- The fatal component of a run outcome. -/
def runFatal : Except Fatal Summary → Option Fatal
  | .error f => some f
  | .ok _ => none

theorem import_preset_indep (env : Env) (pf : Nat → Except String Unit)
    (apiKey authHeader : String) (projId : Option String) :
    runFatal (import_bpx env apiKey authHeader projId).outcome
        = runFatal (import_bpx { env with presetInsert := pf }
            apiKey authHeader projId).outcome ∧
      (import_bpx env apiKey authHeader projId).st.tools
          = (import_bpx { env with presetInsert := pf } apiKey authHeader projId).st.tools ∧
      (import_bpx env apiKey authHeader projId).st.toolsets
          = (import_bpx { env with presetInsert := pf } apiKey authHeader projId).st.toolsets ∧
      (import_bpx env apiKey authHeader projId).st.tools_imported
          = (import_bpx { env with presetInsert := pf }
              apiKey authHeader projId).st.tools_imported ∧
      (import_bpx env apiKey authHeader projId).st.toolsets_imported
          = (import_bpx { env with presetInsert := pf }
              apiKey authHeader projId).st.toolsets_imported ∧
      (import_bpx env apiKey authHeader projId).profile
          = (import_bpx { env with presetInsert := pf } apiKey authHeader projId).profile := by
  have hA : EnvAgree env { env with presetInsert := pf } :=
    ⟨rfl, rfl, rfl, rfl, rfl, rfl⟩
  unfold import_bpx
  by_cases hauth : (decide (apiKey = "") || authHeader != "Bearer " ++ apiKey) = true
  · simp only [if_pos hauth]
    refine ⟨?_, ?_, ?_, ?_, ?_, ?_⟩ <;> trivial
  · simp only [if_neg hauth]
    cases hd : env.download with
    | error e =>
      simp only [hd]
      refine ⟨?_, ?_, ?_, ?_, ?_, ?_⟩ <;> trivial
    | ok x =>
      simp only [hd]
      cases hp : env.profileInsert with
      | error e =>
        simp only [hp]
        refine ⟨?_, ?_, ?_, ?_, ?_, ?_⟩ <;> trivial
      | ok pid =>
        simp only [hp]
        cases hpx : env.parseXml x with
        | none =>
          simp only [hpx]
          refine ⟨?_, ?_, ?_, ?_, ?_, ?_⟩ <;> trivial
        | some doc =>
          simp only [hpx]
          have hA2 : EnvAgree env
              { inflate := env.inflate, download := Except.ok x,
                parseXml := env.parseXml, profileInsert := Except.ok pid,
                toolsetInsert := env.toolsetInsert, toolInsert := env.toolInsert,
                presetInsert := pf } :=
            ⟨rfl, hd, rfl, hp, rfl, rfl⟩
          have hrt := runToolsets_preset_indep env
            { inflate := env.inflate, download := Except.ok x,
              parseXml := env.parseXml, profileInsert := Except.ok pid,
              toolsetInsert := env.toolsetInsert, toolInsert := env.toolInsert,
              presetInsert := pf } hA2
            projId projId pid doc.toolsets 0 {} {} ⟨rfl, rfl, rfl, rfl, rfl, rfl⟩
          cases hr1 : runToolsets env projId pid doc.toolsets 0 {} with
          | mk u₁ fo₁ =>
            cases hr2 : runToolsets
                { inflate := env.inflate, download := Except.ok x,
                  parseXml := env.parseXml, profileInsert := Except.ok pid,
                  toolsetInsert := env.toolsetInsert, toolInsert := env.toolInsert,
                  presetInsert := pf } projId pid doc.toolsets 0 {} with
            | mk u₂ fo₂ =>
              rw [hr1, hr2] at hrt
              obtain ⟨hR, hfo⟩ := hrt
              have hR2 : StR u₁ u₂ := hR
              have hfo2 : fo₁ = fo₂ := hfo
              obtain ⟨w1, w2, w3, w4, w5, w6⟩ := hR2
              cases fo₁ with
              | none =>
                subst hfo2
                exact ⟨by rfl, w4, w3, w6, w5, by rfl⟩
              | some f =>
                subst hfo2
                exact ⟨by rfl, w4, w3, w6, w5, by rfl⟩

theorem import_presets_le_tools (env : Env) (apiKey authHeader : String)
    (projId : Option String) :
    (import_bpx env apiKey authHeader projId).st.presets.length ≤
      (import_bpx env apiKey authHeader projId).st.tools.length := by
  unfold import_bpx
  split
  · simp
  · cases hd : env.download with
    | error e => simp only [hd]; simp
    | ok x =>
      simp only [hd]
      cases hp : env.profileInsert with
      | error e => simp only [hp]; simp
      | ok pid =>
        simp only [hp]
        cases hpx : env.parseXml x with
        | none => simp only [hpx]; simp
        | some doc =>
          simp only [hpx]
          have hle := runToolsets_presets_le_tools env projId pid doc.toolsets 0 {}
          cases hrt : runToolsets env projId pid doc.toolsets 0 {} with
          | mk st0 fo =>
            rw [hrt] at hle
            cases fo with
            | none => simpa using hle
            | some f => simpa using hle

/-- C7: a Preset creation failure is caught and recorded as a warning
string naming the tool; the already-created Tool record is not deleted or
rolled back and the rest of the run is unaffected — replacing the preset
oracle by any other (including an always-failing one) changes neither the
fatal status, nor the created Tool and Toolset rows, nor their counters —
and every run ends with at most as many Presets as Tools. -/
theorem preset_failure_isolated :
    (∀ (env : Env) (pf : Nat → Except String Unit) (apiKey authHeader : String)
       (projId : Option String),
       runFatal (import_bpx env apiKey authHeader projId).outcome
           = runFatal (import_bpx { env with presetInsert := pf }
               apiKey authHeader projId).outcome ∧
         (import_bpx env apiKey authHeader projId).st.tools
             = (import_bpx { env with presetInsert := pf }
                 apiKey authHeader projId).st.tools ∧
         (import_bpx env apiKey authHeader projId).st.toolsets
             = (import_bpx { env with presetInsert := pf }
                 apiKey authHeader projId).st.toolsets ∧
         (import_bpx env apiKey authHeader projId).st.tools_imported
             = (import_bpx { env with presetInsert := pf }
                 apiKey authHeader projId).st.tools_imported) ∧
    (∀ (env : Env) (apiKey authHeader : String) (projId : Option String),
       (import_bpx env apiKey authHeader projId).st.presets.length ≤
         (import_bpx env apiKey authHeader projId).st.tools.length) ∧
    (∀ (env : Env) (projId : Option String) (title : String) (tsIdx tsId : Nat)
       (item : Item) (rest : List Item) (i : Nat) (st : St) (raw : String)
       (subj it : Option String) (style : Style) (toolId : Nat) (e : String),
       item.rawHex.getD "" ≠ "" →
       decode_hex_zlib env.inflate (item.rawHex.getD "") = .ok raw →
       extract_pdf_dict_fields raw = .ok (subj, it, style) →
       map_tool_kind it ≠ "skip" →
       env.toolInsert st.toolCalls = .ok toolId →
       env.presetInsert st.presetCalls = .error e →
       runItems env projId title tsIdx tsId (item :: rest) i st =
         runItems env projId title tsIdx tsId rest (i + 1)
           { st with
             toolCalls := st.toolCalls + 1,
             tools := st.tools ++
               [{ id := toolId, toolset_id := tsId, name := toolName subj i,
                  tool_kind := map_tool_kind it, sort_index := i,
                  raw_decoded := pyTake 4000 raw, style_json := style,
                  mapping_it := it, mapping_category := title }],
             tools_imported := st.tools_imported + 1,
             presetCalls := st.presetCalls + 1,
             warnings := st.warnings ++
               ["Failed preset for \x27" ++ toolName subj i ++ "\x27: " ++ e] }) := by
  refine ⟨?_, import_presets_le_tools, ?_⟩
  · intro env pf apiKey authHeader projId
    obtain ⟨h1, h2, h3, h4, -⟩ := import_preset_indep env pf apiKey authHeader projId
    exact ⟨h1, h2, h3, h4⟩
  · intro env projId title tsIdx tsId item rest i st raw subj it style toolId e
      hraw hdec hext hkind hins hpre
    exact runItems_cons_created_presetErr env projId title tsIdx tsId item rest i st
      raw subj it style toolId e hraw hdec hext hkind hins hpre

/-- Environment whose preset inserts always fail. -/
def envPresetFail : Env :=
  { inflate := fun _ => some []
    download := .ok "doc"
    parseXml := fun _ => some ⟨[⟨none, [⟨some "00"⟩]⟩]⟩
    profileInsert := .ok 1
    toolsetInsert := fun k => .ok (10 + k)
    toolInsert := fun k => .ok (20 + k)
    presetInsert := fun _ => .error "nope" }

/-- Witness for the C7 theorem at a concrete preset-insert failure. -/
theorem preset_failure_isolated_witness :
    runItems envPresetFail none "T" 0 5 [⟨some "00"⟩] 0 {} =
      runItems envPresetFail none "T" 0 5 [] 1
        { toolCalls := 1,
          tools := [{ id := 20, toolset_id := 5, name := "Tool 1", tool_kind := "count",
                      sort_index := 0, raw_decoded := "", style_json := {},
                      mapping_it := none, mapping_category := "T" }],
          tools_imported := 1,
          presetCalls := 1,
          warnings := ["Failed preset for \x27Tool 1\x27: nope"] } :=
  preset_failure_isolated.2.2 envPresetFail none "T" 0 5 ⟨some "00"⟩ [] 0 {} ""
    none none {} 20 "nope" (by decide) (by rfl) (by rfl) (by decide) (by rfl) (by rfl)
